import Mathlib

/-!
Verification of the traefik reverse proxy's runtime-configuration and
resilience-middleware layer, as a shallow embedding in Lean 4.

The embedding covers:
* the dynamic/runtime configuration data model and its operations
  (`NewRuntimeConfig`, `PopulateUsedBy`, `GetRoutersByEntryPoints`,
  `AddError`, `UpdateServerStatus`, `GetAllStatus`, `Mergeable`);
* the balancer middleware chain built by `Server.buildBalancerMiddlewares`;
* the TCP proxy's `ServeTCP` / `connCopy` completion protocol.

Go maps are represented as association lists (`List (String × α)`); a Go
map-typed field that distinguishes `nil` from an allocated map is represented
as `Option (List (String × α))` (`none` = nil map).  Go `error` values are
represented by their message `String`.  Mutation through pointers is made
explicit: each operation returns the updated structure, and for the one claim
about aliasing (`GetAllStatus`) a small explicit heap gives map values an
identity separate from their contents.
-/

/-! ## Association-list maps -/

/-- Lookup in a Go map represented as an association list (first match). -/
def alLookup (l : List (String × α)) (k : String) : Option α :=
  (l.find? (fun p => p.1 == k)).map Prod.snd

/-- Update the value stored at key `k` (applied to every pair with that key;
for the no-duplicate key lists produced by Go maps this is the map update). -/
def alUpdate (l : List (String × α)) (k : String) (f : α → α) : List (String × α) :=
  l.map (fun p => if p.1 == k then (p.1, f p.2) else p)

/-- Go map assignment `m[k] = v`: overwrite if present, append otherwise. -/
def alInsert (l : List (String × α)) (k : String) (v : α) : List (String × α) :=
  if (alLookup l k).isSome then alUpdate l k (fun _ => v) else l ++ [(k, v)]

/-- Lookup through a possibly-nil Go map. -/
def lookIn (m : Option (List (String × α))) (k : String) : Option α :=
  m.bind (fun l => alLookup l k)

/-- Update through a possibly-nil Go map (a nil map stays nil; the update is
only ever performed on keys that exist). -/
def updIn (m : Option (List (String × α))) (k : String) (f : α → α) :
    Option (List (String × α)) :=
  m.map (fun l => alUpdate l k f)

/-- The entries ranged over by a Go `for … range m` loop (nil map = no entries). -/
def entriesOf (m : Option (List (String × α))) : List (String × α) :=
  m.getD []

/-- The keys of an association list. -/
def alKeys (l : List (String × α)) : List String :=
  l.map Prod.fst

/-! ## Strings: Go `strings.Split` and `sort.Strings` -/

/-- Split a character list at every occurrence of `sep`
(`strings.Split` semantics: splitting the empty string yields `[""]`). -/
def splitChars (sep : Char) : List Char → List (List Char)
  | [] => [[]]
  | c :: cs =>
    let r := splitChars sep cs
    if c = sep then [] :: r
    else
      match r with
      | h :: t => (c :: h) :: t
      | [] => [[c]]

/-- Go `strings.Split(s, sep)` for a one-character separator. -/
def goSplit (s : String) (sep : Char) : List String :=
  (splitChars sep s.data).map (fun l => String.mk l)

/-- Lexicographic comparison of character lists by code point
(Go `sort.Strings` byte order restricted to the names' character set). -/
def leChars : List Char → List Char → Bool
  | [], _ => true
  | _ :: _, [] => false
  | a :: as, b :: bs =>
    if a = b then leChars as bs else decide (a < b)

/-- Lexicographic order on strings used by `sort.Strings`. -/
def leString (a b : String) : Bool :=
  leChars a.data b.data

/-- The order relation behind `sort.Strings`, as a `Prop`. -/
def LeStr (a b : String) : Prop :=
  leString a b = true

instance : DecidableRel LeStr := fun a b => by
  unfold LeStr; infer_instance

/-- Go `sort.Strings` (any stable comparison sort; on equal keys all sorts
agree, so insertion sort is a faithful model). -/
def sortStrings (l : List String) : List String :=
  List.insertionSort LeStr l

/-! ## Dynamic configuration data model (pkg/config/dynamic) -/

/-- `types.Domain`. -/
structure Domain where
  main : String
  sans : List String
  deriving DecidableEq

/-- `RouterTLSConfig`: the TLS configuration of a router. -/
structure RouterTLSConfig where
  options : String
  certResolver : String
  domains : List Domain
  deriving DecidableEq

/-- `Router`: the dynamic router configuration. -/
structure Router where
  entryPoints : List String
  middlewares : List String
  service : String
  rule : String
  priority : Int
  tls : Option RouterTLSConfig
  deriving DecidableEq

/-- `Cookie`: sticky-cookie configuration. -/
structure Cookie where
  name : String
  secure : Bool
  httpOnly : Bool
  deriving DecidableEq

/-- `Sticky`: stickiness configuration. -/
structure Sticky where
  cookie : Option Cookie
  deriving DecidableEq

/-- `Server`: one backend server of a load balancer. -/
structure Server where
  url : String
  scheme : String
  port : String
  deriving DecidableEq

/-- `ResponseForwarding`. -/
structure ResponseForwarding where
  flushInterval : String
  deriving DecidableEq

/-- `HealthCheck` (the `Headers` Go map is represented as an association list). -/
structure HealthCheck where
  scheme : String
  path : String
  port : Int
  interval : String
  timeout : String
  hostname : String
  headers : List (String × String)
  deriving DecidableEq

/-- `ServersLoadBalancer`. -/
structure ServersLoadBalancer where
  sticky : Option Sticky
  servers : List Server
  healthCheck : Option HealthCheck
  passHostHeader : Bool
  responseForwarding : Option ResponseForwarding
  deriving DecidableEq

/-- `WRRService`. -/
structure WRRService where
  name : String
  weight : Int
  deriving DecidableEq

/-- `WeightedRoundRobin`. -/
structure WeightedRoundRobin where
  services : List WRRService
  sticky : Option Sticky
  deriving DecidableEq

/-- `Service`: an HTTP service configuration. -/
structure Service where
  loadBalancer : Option ServersLoadBalancer
  weighted : Option WeightedRoundRobin
  deriving DecidableEq

/-- `Middleware`: the middleware configuration payload.  None of the verified
operations inspects it, and its (large) definition is not among the provided
sources, so it is embedded as an opaque marker value. -/
structure Middleware where
  deriving DecidableEq

/-- Modelled from the spec: a TCP router declares entry points, a rule and a
service reference (the fields read by the runtime-configuration pass). -/
structure TCPRouter where
  entryPoints : List String
  service : String
  rule : String
  deriving DecidableEq

/-- `TCPServer` (from the TCP service tests: an `Address` field). -/
structure TCPServer where
  address : String
  deriving DecidableEq

/-- `TCPLoadBalancerService` (from the TCP service tests: method and servers). -/
structure TCPLoadBalancerService where
  method : String
  servers : List TCPServer
  deriving DecidableEq

/-- `TCPService`. -/
structure TCPService where
  loadBalancer : Option TCPLoadBalancerService
  deriving DecidableEq

/-- `Mergeable` tells if the given service is mergeable: it temporarily nils
both `Servers` fields, compares the rest with `reflect.DeepEqual`, and restores
both `Servers` fields on return (the Go `defer`s).  The embedding returns the
comparison result together with the final values of both receivers. -/
def ServersLoadBalancer.mergeable (l lb : ServersLoadBalancer) :
    Bool × ServersLoadBalancer × ServersLoadBalancer :=
  let savedServers := l.servers
  let savedServersLB := lb.servers
  let l' : ServersLoadBalancer := { l with servers := [] }
  let lb' : ServersLoadBalancer := { lb with servers := [] }
  let result := l' == lb'
  (result, { l' with servers := savedServers }, { lb' with servers := savedServersLB })

/-! ## Runtime configuration (pkg/config runtime) -/

def RuntimeStatusEnabled : String := "enabled"

def RuntimeStatusDisabled : String := "disabled"

def RuntimeStatusWarning : String := "warning"

/-- `RouterInfo`: a running HTTP router with its error list and status. -/
structure RouterInfo where
  router : Router
  err : List String
  status : String
  deriving DecidableEq

/-- `MiddlewareInfo`: a running middleware.  The source type has `Err` and
`UsedBy` fields but no `Status` field. -/
structure MiddlewareInfo where
  middleware : Middleware
  err : List String
  usedBy : List String
  deriving DecidableEq

/-- `ServiceInfo` (value part): a running HTTP service.  The separately
modelled `serverStatus` reference cell is in the heap model further down; the
`serverStatus` field here is the map's contents. -/
structure ServiceInfo where
  service : Service
  err : List String
  status : String
  usedBy : List String
  serverStatus : List (String × String)
  deriving DecidableEq

/-- `TCPRouterInfo`: a running TCP router.  The source type has a single
`Err : string` field and no `Status` field. -/
structure TCPRouterInfo where
  tcpRouter : TCPRouter
  err : String
  deriving DecidableEq

/-- `TCPServiceInfo`: a running TCP service (`Err`, `UsedBy`; no `Status`). -/
structure TCPServiceInfo where
  tcpService : TCPService
  err : String
  usedBy : List String
  deriving DecidableEq

/-- `RuntimeConfiguration`: the five runtime maps.  `none` models a nil Go map,
`some l` an allocated one. -/
structure RuntimeConfiguration where
  routers : Option (List (String × RouterInfo))
  middlewares : Option (List (String × MiddlewareInfo))
  services : Option (List (String × ServiceInfo))
  tcpRouters : Option (List (String × TCPRouterInfo))
  tcpServices : Option (List (String × TCPServiceInfo))
  deriving DecidableEq

/-- `HTTPConfiguration`: the HTTP section of the dynamic configuration. -/
structure HTTPConfiguration where
  routers : List (String × Router)
  middlewares : List (String × Middleware)
  services : List (String × Service)
  deriving DecidableEq

/-- Modelled from the spec: the TCP section of the dynamic configuration
(routers and services maps, mirroring the HTTP section). -/
structure TCPConfiguration where
  routers : List (String × TCPRouter)
  services : List (String × TCPService)
  deriving DecidableEq

/-- `Configuration`: dynamic configuration with optional HTTP and TCP sections
(`none` models a nil section pointer). -/
structure Configuration where
  http : Option HTTPConfiguration
  tcp : Option TCPConfiguration
  deriving DecidableEq

/-- `NewRuntimeConfig`: wraps a validated dynamic configuration into the
runtime shape.  Each entity map is allocated only when the corresponding
source map is non-empty; with both sections absent the empty structure (all
maps nil) is returned. -/
def newRuntimeConfig (conf : Configuration) : RuntimeConfiguration :=
  if conf.http = none ∧ conf.tcp = none then
    ⟨none, none, none, none, none⟩
  else
    let rcRouters :=
      match conf.http with
      | none => none
      | some h =>
        if h.routers.length > 0 then
          some (h.routers.map (fun p => (p.1, RouterInfo.mk p.2 [] RuntimeStatusEnabled)))
        else none
    let rcServices :=
      match conf.http with
      | none => none
      | some h =>
        if h.services.length > 0 then
          some (h.services.map (fun p => (p.1, ServiceInfo.mk p.2 [] RuntimeStatusEnabled [] [])))
        else none
    let rcMiddlewares :=
      match conf.http with
      | none => none
      | some h =>
        if h.middlewares.length > 0 then
          some (h.middlewares.map (fun p => (p.1, MiddlewareInfo.mk p.2 [] [])))
        else none
    let rcTCPRouters :=
      match conf.tcp with
      | none => none
      | some t =>
        if t.routers.length > 0 then
          some (t.routers.map (fun p => (p.1, TCPRouterInfo.mk p.2 "")))
        else none
    let rcTCPServices :=
      match conf.tcp with
      | none => none
      | some t =>
        if t.services.length > 0 then
          some (t.services.map (fun p => (p.1, TCPServiceInfo.mk p.2 "" [])))
        else none
    ⟨rcRouters, rcMiddlewares, rcServices, rcTCPRouters, rcTCPServices⟩

/-- `getProviderName`: the part after the first `@`, or `""` if unqualified. -/
def getProviderName (elementName : String) : String :=
  match goSplit elementName '@' with
  | _ :: p :: _ => p
  | _ => ""

/-- `getQualifiedName`: qualify an unqualified name with `provider`. -/
def getQualifiedName (provider elementName : String) : String :=
  if (goSplit elementName '@').length = 1 then
    elementName ++ "@" ++ provider
  else elementName

/-! ## PopulateUsedBy -/

/-- The lazy status initialization applied to each HTTP router
("in case caller forgot to do it"). -/
def statusInitRouter (ri : RouterInfo) : RouterInfo :=
  if ri.status = "" then { ri with status := RuntimeStatusEnabled } else ri

/-- The lazy status initialization applied to each HTTP service. -/
def statusInitService (si : ServiceInfo) : ServiceInfo :=
  if si.status = "" then { si with status := RuntimeStatusEnabled } else si

/-- The inner loop of `PopulateUsedBy` over one router's middleware
references: qualify each reference and append the router name to the target's
`UsedBy` when the target exists (missing targets are skipped). -/
def linkRouterMids (mids : Option (List (String × MiddlewareInfo)))
    (providerName routerName : String) (refs : List String) :
    Option (List (String × MiddlewareInfo)) :=
  refs.foldl (fun acc midName =>
    let fullMidName := getQualifiedName providerName midName
    if (lookIn acc fullMidName).isSome then
      updIn acc fullMidName (fun mi => { mi with usedBy := mi.usedBy ++ [routerName] })
    else acc) mids

/-- One iteration of the HTTP-router loop of `PopulateUsedBy`: lazily
initialize the router's status, skip routers whose name has no provider
qualifier, link middleware references, then the service reference. -/
def processRouter (r : RuntimeConfiguration) (p : String × RouterInfo) :
    RuntimeConfiguration :=
  let routerName := p.1
  let routerInfo := p.2
  let r :=
    if routerInfo.status = "" then
      { r with routers := updIn r.routers routerName (fun ri => { ri with status := RuntimeStatusEnabled }) }
    else r
  let providerName := getProviderName routerName
  if providerName = "" then r
  else
    let r := { r with
      middlewares := linkRouterMids r.middlewares providerName routerName
        routerInfo.router.middlewares }
    let serviceName := getQualifiedName providerName routerInfo.router.service
    if (lookIn r.services serviceName).isSome then
      { r with services := updIn r.services serviceName (fun si => { si with usedBy := si.usedBy ++ [routerName] }) }
    else r

/-- One iteration of the TCP-router loop of `PopulateUsedBy`. -/
def processTCPRouter (r : RuntimeConfiguration) (p : String × TCPRouterInfo) :
    RuntimeConfiguration :=
  let routerName := p.1
  let routerInfo := p.2
  let providerName := getProviderName routerName
  if providerName = "" then r
  else
    let serviceName := getQualifiedName providerName routerInfo.tcpRouter.service
    if (lookIn r.tcpServices serviceName).isSome then
      { r with tcpServices := updIn r.tcpServices serviceName (fun si => { si with usedBy := si.usedBy ++ [routerName] }) }
    else r

/-- The per-service body of the second loop of `PopulateUsedBy`: lazily
initialize the status, then sort the `UsedBy` list. -/
def sortInitServiceVal (si : ServiceInfo) : ServiceInfo :=
  let si' := statusInitService si
  { si' with usedBy := sortStrings si'.usedBy }

/-- The per-middleware body of the third loop of `PopulateUsedBy`: sort the
`UsedBy` list. -/
def sortMiddlewareVal (mi : MiddlewareInfo) : MiddlewareInfo :=
  { mi with usedBy := sortStrings mi.usedBy }

/-- The per-TCP-service body of the last loop of `PopulateUsedBy`: sort the
`UsedBy` list. -/
def sortTCPServiceVal (ti : TCPServiceInfo) : TCPServiceInfo :=
  { ti with usedBy := sortStrings ti.usedBy }

/-- `PopulateUsedBy`: link routers to the services and middlewares they
reference, then sort every `UsedBy` list (and lazily initialize statuses).
Go map iteration order is unspecified; the embedding iterates entries in list
order, and every verified property is insensitive to that order. -/
def populateUsedBy (r : RuntimeConfiguration) : RuntimeConfiguration :=
  let r := (entriesOf r.routers).foldl processRouter r
  let r := { r with services := r.services.map (List.map (fun (p : String × ServiceInfo) => (p.1, sortInitServiceVal p.2))) }
  let r := { r with middlewares := r.middlewares.map (List.map (fun (p : String × MiddlewareInfo) => (p.1, sortMiddlewareVal p.2))) }
  let r := (entriesOf r.tcpRouters).foldl processTCPRouter r
  let r := { r with tcpServices := r.tcpServices.map (List.map (fun (p : String × TCPServiceInfo) => (p.1, sortTCPServiceVal p.2))) }
  r

/-- The `UsedBy` contribution of one router entry to the middleware named `m`:
one copy of the router's name per matching middleware reference, provided the
router's own name is provider-qualified. -/
def routerMidContrib (m : String) (p : String × RouterInfo) : List String :=
  let provider := getProviderName p.1
  if provider = "" then []
  else (p.2.router.middlewares.filter
    (fun ref => getQualifiedName provider ref == m)).map (fun _ => p.1)

/-- The `UsedBy` contribution of one router entry to the HTTP service named
`svc`. -/
def routerSvcContrib (svc : String) (p : String × RouterInfo) : List String :=
  let provider := getProviderName p.1
  if provider = "" then []
  else if getQualifiedName provider p.2.router.service = svc then [p.1]
  else []

/-- The `UsedBy` contribution of one TCP router entry to the TCP service named
`svc`. -/
def tcpSvcContrib (svc : String) (p : String × TCPRouterInfo) : List String :=
  let provider := getProviderName p.1
  if provider = "" then []
  else if getQualifiedName provider p.2.tcpRouter.service = svc then [p.1]
  else []

/-! ## GetRoutersByEntryPoints -/

/-- The `contains` helper of the runtime package. -/
def containsName : List String → String → Bool
  | [], _ => false
  | n :: rest, x => if n = x then true else containsName rest x

/-- The skip condition of `GetRoutersByEntryPoints`: the router's TLS
declaration does not match the requested `tls` flag. -/
def tlsSkip (tls : Bool) (ri : RouterInfo) : Bool :=
  (tls && ri.router.tls.isNone) || (!tls && ri.router.tls.isSome)

/-- The entry points a router is associated with: its own list, or the full
supplied set when its list is empty. -/
def effectiveEPs (entryPoints : List String) (ri : RouterInfo) : List String :=
  if ri.router.entryPoints = [] then entryPoints else ri.router.entryPoints

/-- `entryPointsRouters[entryPointName][rtName] = rt` with lazy allocation of
the inner map. -/
def insertEP (acc : List (String × List (String × RouterInfo)))
    (ep rn : String) (ri : RouterInfo) :
    List (String × List (String × RouterInfo)) :=
  if (alLookup acc ep).isSome then
    alUpdate acc ep (fun inner => alInsert inner rn ri)
  else
    acc ++ [(ep, [(rn, ri)])]

/-- The inner loop of `GetRoutersByEntryPoints` for one router: insert it
under each of its effective entry points, dropping names absent from the
supplied set. -/
def insertRouterEPs (entryPoints : List String) (rn : String) (ri : RouterInfo)
    (acc : List (String × List (String × RouterInfo))) :
    List (String × List (String × RouterInfo)) :=
  (effectiveEPs entryPoints ri).foldl (fun acc ep =>
    if containsName entryPoints ep then insertEP acc ep rn ri else acc) acc

/-- One iteration of the router loop of `GetRoutersByEntryPoints`: skip the
router when its TLS declaration does not match, otherwise insert it under its
effective entry points. -/
def processRouterEP (entryPoints : List String) (tls : Bool)
    (acc : List (String × List (String × RouterInfo)))
    (p : String × RouterInfo) :
    List (String × List (String × RouterInfo)) :=
  if tlsSkip tls p.2 then acc
  else insertRouterEPs entryPoints p.1 p.2 acc

/-- `GetRoutersByEntryPoints`: partition the HTTP routers by entry-point name,
keeping only routers whose TLS declaration matches `tls`, and dropping (with a
logged error) entry-point names absent from the supplied set. -/
def getRoutersByEntryPoints (r : RuntimeConfiguration)
    (entryPoints : List String) (tls : Bool) :
    List (String × List (String × RouterInfo)) :=
  (entriesOf r.routers).foldl (processRouterEP entryPoints tls) []

/-- Two-level lookup in the partition returned by `getRoutersByEntryPoints`. -/
def lookup2 (res : List (String × List (String × RouterInfo)))
    (ep rn : String) : Option RouterInfo :=
  (alLookup res ep).bind (fun inner => alLookup inner rn)

/-! ## AddError -/

/-- `RouterInfo.AddError`: record an error message once; a critical error
disables the router, a non-critical one downgrades it to warning unless it is
already disabled. -/
def RouterInfo.addError (r : RouterInfo) (e : String) (critical : Bool) :
    RouterInfo :=
  if e ∈ r.err then r
  else
    let r := { r with err := r.err ++ [e] }
    if critical then { r with status := RuntimeStatusDisabled }
    else if r.status ≠ RuntimeStatusDisabled then
      { r with status := RuntimeStatusWarning }
    else r

/-- `ServiceInfo.AddError` (same state machine as for routers). -/
def ServiceInfo.addError (s : ServiceInfo) (e : String) (critical : Bool) :
    ServiceInfo :=
  if e ∈ s.err then s
  else
    let s := { s with err := s.err ++ [e] }
    if critical then { s with status := RuntimeStatusDisabled }
    else if s.status ≠ RuntimeStatusDisabled then
      { s with status := RuntimeStatusWarning }
    else s

/-- Rank of a runtime status in the worsening order
`enabled -> warning -> disabled`. -/
def statusRank (s : String) : Nat :=
  if s = RuntimeStatusEnabled then 0
  else if s = RuntimeStatusWarning then 1
  else 2

/-! ## ServiceInfo server statuses: heap model (UpdateServerStatus / GetAllStatus)

Map values in Go have identity: returning the stored map would alias it.  The
heap below gives each map value an address, so that "defensive copy" is a
provable statement and not a triviality of the pure embedding. -/

/-- A heap of server-status maps; the address of a cell is its index. -/
structure ServerStatusHeap where
  cells : List (List (String × String))
  deriving DecidableEq

/-- Read the map stored at address `a`. -/
def ServerStatusHeap.get (h : ServerStatusHeap) (a : Nat) : List (String × String) :=
  (h.cells[a]?).getD []

/-- Overwrite the map stored at address `a` (models arbitrary mutation of that
map object by a caller). -/
def ServerStatusHeap.set (h : ServerStatusHeap) (a : Nat)
    (v : List (String × String)) : ServerStatusHeap :=
  ⟨h.cells.set a v⟩

/-- Allocate a fresh map object (Go `make(map[string]string, …)`). -/
def ServerStatusHeap.alloc (h : ServerStatusHeap) (v : List (String × String)) :
    Nat × ServerStatusHeap :=
  (h.cells.length, ⟨h.cells ++ [v]⟩)

/-- The `serverStatus` field of a `ServiceInfo`: a possibly-nil reference to a
heap-allocated map. -/
structure ServiceInfoRef where
  serverStatusAddr : Option Nat
  deriving DecidableEq

/-- Go map assignment `m[k] = v` on the contents of a server-status map. -/
def insertKV (m : List (String × String)) (k v : String) :
    List (String × String) :=
  if (alLookup m k).isSome then alUpdate m k (fun _ => v) else m ++ [(k, v)]

/-- `ServiceInfo.UpdateServerStatus`: allocate the map on first use, then set
the server's status in place. -/
def updateServerStatus (s : ServiceInfoRef) (h : ServerStatusHeap)
    (server status : String) : ServiceInfoRef × ServerStatusHeap :=
  match s.serverStatusAddr with
  | none =>
    let (a, h') := h.alloc (insertKV [] server status)
    (⟨some a⟩, h')
  | some a => (s, h.set a (insertKV (h.get a) server status))

/-- `ServiceInfo.GetAllStatus`: return nil when the stored map is empty or
nil, otherwise allocate a fresh map holding a copy of the stored entries. -/
def getAllStatus (s : ServiceInfoRef) (h : ServerStatusHeap) :
    Option Nat × ServerStatusHeap :=
  let m := match s.serverStatusAddr with
    | none => []
    | some a => h.get a
  if m.length = 0 then (none, h)
  else
    let (a, h') := h.alloc m
    (some a, h')

/-- The per-server statuses currently stored in a `ServiceInfo`. -/
def storedStatus (s : ServiceInfoRef) (h : ServerStatusHeap) :
    List (String × String) :=
  match s.serverStatusAddr with
  | none => []
  | some a => h.get a

/-! ## buildBalancerMiddlewares (server/server_loadbalancer.go)

The handler chain is embedded structurally: each middleware constructor wraps
the handler it delegates to, exactly as each `lb = wrap(lb)` assignment in
`Server.buildBalancerMiddlewares` wraps the previous value of `lb`. -/

/-- A layer of the balancer handler chain. -/
inductive MWLabel where
  | rateLimit
  | maxConn
  | retryMW
  | buffering
  | circuitBreaker
  | emptyBackend
  | loadBalancer
  | forward
  deriving DecidableEq

/-- The handler chain: each constructor delegates to its inner handler. -/
inductive Handler where
  | forward
  | balancer (inner : Handler)
  | emptyBackend (inner : Handler)
  | rateLimit (inner : Handler)
  | maxConn (inner : Handler)
  | retryMW (inner : Handler)
  | buffering (inner : Handler)
  | circuitBreaker (inner : Handler)
  deriving DecidableEq

/-- The layers of a handler chain, listed outer-to-inner: the order in which a
request entering the handler traverses them. -/
def Handler.layers : Handler → List MWLabel
  | .forward => [.forward]
  | .balancer h => .loadBalancer :: h.layers
  | .emptyBackend h => .emptyBackend :: h.layers
  | .rateLimit h => .rateLimit :: h.layers
  | .maxConn h => .maxConn :: h.layers
  | .retryMW h => .retryMW :: h.layers
  | .buffering h => .buffering :: h.layers
  | .circuitBreaker h => .circuitBreaker :: h.layers

/-- The resilience middlewares among a chain's layers (the five named by the
spec's ordering sentence), still outer-to-inner. -/
def resilienceLayers (h : Handler) : List MWLabel :=
  h.layers.filter (fun l =>
    l == .rateLimit || l == .maxConn || l == .retryMW || l == .buffering ||
    l == .circuitBreaker)

/-- `types.Rate` (fields read by `buildRateLimiter`). -/
structure Rate where
  period : Int
  average : Int
  burst : Int
  deriving DecidableEq

/-- `types.RateLimit` (fields read by `buildBalancerMiddlewares`). -/
structure RateLimit where
  extractorFunc : String
  rateSet : List Rate
  deriving DecidableEq

/-- `types.MaxConn` (fields read by `buildBalancerMiddlewares`). -/
structure MaxConn where
  amount : Int
  extractorFunc : String
  deriving DecidableEq

/-- `types.Buffering` (fields read by `buildBufferingMiddleware`). -/
structure Buffering where
  memRequestBodyBytes : Int
  maxRequestBodyBytes : Int
  memResponseBodyBytes : Int
  maxResponseBodyBytes : Int
  retryExpression : String
  deriving DecidableEq

/-- `types.CircuitBreaker` (field read by `buildBalancerMiddlewares`). -/
structure CircuitBreaker where
  expression : String
  deriving DecidableEq

/-- `configuration.Retry` (field read by `buildRetryMiddleware`). -/
structure RetryConfig where
  attempts : Int
  deriving DecidableEq

/-- `types.Frontend` (fields read by `buildBalancerMiddlewares`). -/
structure Frontend where
  backend : String
  rateLimit : Option RateLimit
  deriving DecidableEq

/-- `types.Backend` (fields read by `buildBalancerMiddlewares`). -/
structure Backend where
  maxConn : Option MaxConn
  buffering : Option Buffering
  circuitBreaker : Option CircuitBreaker
  deriving DecidableEq

/-- `Server.buildBalancerMiddlewares` (success path): build the load balancer
over the forwarding handler, wrap it in the empty-backend guard, then
conditionally wrap rate-limit, max-connections, retry, buffering and
circuit-breaker, in that assignment order — so every later wrap encloses all
earlier ones. -/
def buildBalancerMiddlewares (frontend : Frontend) (backend : Backend)
    (globalRetry : Option RetryConfig) : Handler :=
  let balancer := Handler.balancer Handler.forward
  let lb := Handler.emptyBackend balancer
  let lb :=
    match frontend.rateLimit with
    | some rl => if rl.rateSet.length > 0 then Handler.rateLimit lb else lb
    | none => lb
  let lb :=
    match backend.maxConn with
    | some mc => if mc.amount ≠ 0 then Handler.maxConn lb else lb
    | none => lb
  let lb :=
    match globalRetry with
    | some _ => Handler.retryMW lb
    | none => lb
  let lb :=
    match backend.buffering with
    | some _ => Handler.buffering lb
    | none => lb
  let lb :=
    match backend.circuitBreaker with
    | some _ => Handler.circuitBreaker lb
    | none => lb
  lb

/-! ## ServeTCP completion protocol (pkg/tcp/proxy.go)

`ServeTCP` spawns two `connCopy` goroutines that each send exactly one value
on the shared unbuffered channel `errChan` when their copy loop finishes, and
then performs two receives before returning.  The protocol is embedded as a
transition system: an unbuffered-channel communication is a rendezvous that
simultaneously marks the sender's copy loop as finished and advances the
receiving `ServeTCP` body. -/

/-- Phase of one directional copy goroutine: still copying, or finished and
its completion signal delivered. -/
inductive CopyPhase where
  | running
  | done
  deriving DecidableEq

/-- Phase of the `ServeTCP` body after spawning the two copy goroutines:
waiting for the first receive, waiting for the second, or returned. -/
inductive MainPhase where
  | waitFirst
  | waitSecond
  | returned
  deriving DecidableEq

/-- Joint state of `ServeTCP` and its two copy goroutines. -/
structure ServeTCPState where
  copyClientToBackend : CopyPhase
  copyBackendToClient : CopyPhase
  main : MainPhase
  deriving DecidableEq

/-- The state right after `ServeTCP` spawns the two copy goroutines. -/
def serveTCPInit : ServeTCPState :=
  ⟨CopyPhase.running, CopyPhase.running, MainPhase.waitFirst⟩

/-- One rendezvous on `errChan`: a copy goroutine that has finished its
`io.Copy` delivers its signal to whichever receive `ServeTCP` is blocked on. -/
inductive ServeTCPStep : ServeTCPState → ServeTCPState → Prop
  | firstFromClientCopy (b : CopyPhase) :
      ServeTCPStep ⟨CopyPhase.running, b, MainPhase.waitFirst⟩
        ⟨CopyPhase.done, b, MainPhase.waitSecond⟩
  | firstFromBackendCopy (a : CopyPhase) :
      ServeTCPStep ⟨a, CopyPhase.running, MainPhase.waitFirst⟩
        ⟨a, CopyPhase.done, MainPhase.waitSecond⟩
  | secondFromClientCopy (b : CopyPhase) :
      ServeTCPStep ⟨CopyPhase.running, b, MainPhase.waitSecond⟩
        ⟨CopyPhase.done, b, MainPhase.returned⟩
  | secondFromBackendCopy (a : CopyPhase) :
      ServeTCPStep ⟨a, CopyPhase.running, MainPhase.waitSecond⟩
        ⟨a, CopyPhase.done, MainPhase.returned⟩

/-- Reachability from the post-spawn state of `ServeTCP`. -/
def ServeTCPReachable (s : ServeTCPState) : Prop :=
  Relation.ReflTransGen ServeTCPStep serveTCPInit s

/-- How many copy goroutines have delivered their completion signal. -/
def doneCount (s : ServeTCPState) : Nat :=
  (if s.copyClientToBackend = CopyPhase.done then 1 else 0) +
  (if s.copyBackendToClient = CopyPhase.done then 1 else 0)

/-- How many receives the `ServeTCP` body has completed. -/
def recvCount (s : ServeTCPState) : Nat :=
  match s.main with
  | MainPhase.waitFirst => 0
  | MainPhase.waitSecond => 1
  | MainPhase.returned => 2

/-! ## connCopy (pkg/tcp/proxy.go) -/

/-- The destination connection of a `connCopy` call, as the copy loop's
environment: whether its `CloseWrite` fails (half-close unsupported) and
whether `SetReadDeadline` fails. -/
structure ConnState where
  closeWriteFails : Bool
  setReadDeadlineFails : Bool
  deriving DecidableEq

/-- The externally visible effects of one `connCopy` call after its `io.Copy`
returns: the completion signal is sent, `CloseWrite` is called, and the read
deadline is armed with the given delay — or not. -/
structure ConnCopyEffect where
  sentOnErrChan : Bool
  closeWriteCalled : Bool
  closeCalled : Bool
  deadlineArmed : Option Int
  deriving DecidableEq

/-- `Proxy.connCopy`, from the point where its `io.Copy` has finished: send
the result on `errCh`, call `CloseWrite` on the destination; on a `CloseWrite`
error, log and return; otherwise, when `terminationDelay ≥ 0`, arm a read
deadline of now plus `terminationDelay` on the destination (a
`SetReadDeadline` error is only logged). -/
def connCopy (dst : ConnState) (terminationDelay : Int) : ConnCopyEffect :=
  let eff : ConnCopyEffect :=
    { sentOnErrChan := true, closeWriteCalled := true, closeCalled := false,
      deadlineArmed := none }
  if dst.closeWriteFails then eff
  else if terminationDelay ≥ 0 then { eff with deadlineArmed := some terminationDelay }
  else eff

/-! ## The spec's reading of NewRuntimeConfig statuses (for claim C8) -/

/-- The status carried by a wrapped HTTP router. -/
def RouterInfo.carriedStatus (r : RouterInfo) : Option String :=
  some r.status

/-- The status carried by a wrapped HTTP service. -/
def ServiceInfo.carriedStatus (s : ServiceInfo) : Option String :=
  some s.status

/-- The status carried by a wrapped middleware: the source `MiddlewareInfo`
type has no `Status` field, so no wrapped middleware carries one. -/
def MiddlewareInfo.carriedStatus (_ : MiddlewareInfo) : Option String :=
  none

/-- The status carried by a wrapped TCP router: the source `TCPRouterInfo`
type has no `Status` field. -/
def TCPRouterInfo.carriedStatus (_ : TCPRouterInfo) : Option String :=
  none

/-- The status carried by a wrapped TCP service: the source `TCPServiceInfo`
type has no `Status` field. -/
def TCPServiceInfo.carriedStatus (_ : TCPServiceInfo) : Option String :=
  none

/-- Modelled from the spec: "wrapping each entity with initial
`Status = enabled`" — every entity wrapped in the runtime configuration
carries the status `enabled`. -/
def allEntitiesEnabled (r : RuntimeConfiguration) : Bool :=
  (entriesOf r.routers).all (fun p => p.2.carriedStatus == some RuntimeStatusEnabled) &&
  (entriesOf r.services).all (fun p => p.2.carriedStatus == some RuntimeStatusEnabled) &&
  (entriesOf r.middlewares).all (fun p => p.2.carriedStatus == some RuntimeStatusEnabled) &&
  (entriesOf r.tcpRouters).all (fun p => p.2.carriedStatus == some RuntimeStatusEnabled) &&
  (entriesOf r.tcpServices).all (fun p => p.2.carriedStatus == some RuntimeStatusEnabled)

/-! ## Characterization helpers used in theorem statements -/

/-- All `UsedBy` contributions of one `PopulateUsedBy` pass to the HTTP
service named `sn`. -/
def svcContribAll (cfg : RuntimeConfiguration) (sn : String) : List String :=
  (entriesOf cfg.routers).flatMap (routerSvcContrib sn)

/-- All `UsedBy` contributions of one `PopulateUsedBy` pass to the middleware
named `mn`. -/
def midContribAll (cfg : RuntimeConfiguration) (mn : String) : List String :=
  (entriesOf cfg.routers).flatMap (routerMidContrib mn)

/-- All `UsedBy` contributions of one `PopulateUsedBy` pass to the TCP
service named `sn`. -/
def tcpContribAll (cfg : RuntimeConfiguration) (sn : String) : List String :=
  (entriesOf cfg.tcpRouters).flatMap (tcpSvcContrib sn)

/-- The contents of the map a `GetAllStatus` call hands to its caller
(`none` when the call returns a nil map). -/
def getAllStatusView (s : ServiceInfoRef) (h : ServerStatusHeap) :
    Option (List (String × String)) :=
  match getAllStatus s h with
  | (none, _) => none
  | (some a, h') => some (h'.get a)

/-! ## Concrete sample values used by witnesses and counterexamples -/

/-- A provider-qualified router referencing service `s` and middleware `m`. -/
def routerW : Router :=
  ⟨[], ["m"], "s", "rule", 0, none⟩

def riW : RouterInfo :=
  ⟨routerW, [], ""⟩

def siW : ServiceInfo :=
  ⟨⟨none, none⟩, [], "", [], []⟩

def miW : MiddlewareInfo :=
  ⟨⟨⟩, [], []⟩

/-- A runtime configuration with one qualified router whose service and
middleware references both resolve. -/
def cfgLink : RuntimeConfiguration :=
  ⟨some [("r@p", riW)], some [("m@p", miW)], some [("s@p", siW)], none, none⟩

/-- The service wrapper of `cfgLink` after one `PopulateUsedBy` pass. -/
def siLinked : ServiceInfo :=
  ⟨⟨none, none⟩, [], "enabled", ["r@p"], []⟩

/-- The middleware wrapper of `cfgLink` after one `PopulateUsedBy` pass. -/
def miLinked : MiddlewareInfo :=
  ⟨⟨⟩, [], ["r@p"]⟩

/-- A router with an empty entry-point list and no TLS configuration. -/
def cfgEP : RuntimeConfiguration :=
  ⟨some [("r@p", ⟨⟨[], [], "s", "", 0, none⟩, [], "enabled"⟩)], none, none, none, none⟩

/-- A configuration whose only entity is one middleware. -/
def confMidOnly : Configuration :=
  ⟨some ⟨[], [("m@p", ⟨⟩)], []⟩, none⟩

/-- A one-cell heap holding one server status, referenced by `srefW`. -/
def heapW : ServerStatusHeap :=
  ⟨[[("u", "up")]]⟩

def srefW : ServiceInfoRef :=
  ⟨some 0⟩

/-- A frontend with a non-empty rate-limit configuration. -/
def frontendAll : Frontend :=
  ⟨"b", some ⟨"client.ip", [⟨1, 10, 20⟩]⟩⟩

/-- A backend with max-connections, buffering and circuit-breaker set. -/
def backendAll : Backend :=
  ⟨some ⟨7, "client.ip"⟩, some ⟨0, 0, 0, 0, "expr"⟩, some ⟨"expr"⟩⟩

/-!
# Theorems

Generic lemmas about the embedded map, string and sorting operations come
first, then one theorem per verified claim (with its witness or
counterexample).
-/

/-- Transitivity of the `sort.Strings` character-list order. -/
theorem leChars_trans :
    ∀ a b c : List Char, leChars a b = true → leChars b c = true →
      leChars a c = true
  | [], _, _, _, _ => rfl
  | a :: as, [], _, h1, _ => by simp [leChars] at h1
  | a :: as, b :: bs, [], _, h2 => by simp [leChars] at h2
  | a :: as, b :: bs, c :: cs, h1, h2 => by
    simp only [leChars] at h1 h2 ⊢
    by_cases hab : a = b
    · subst hab
      by_cases hac : a = c
      · subst hac
        simp only [if_pos rfl] at h1 h2 ⊢
        exact leChars_trans as bs cs h1 h2
      · simp only [if_pos rfl] at h1
        simp only [if_neg hac] at h2 ⊢
        exact h2
    · by_cases hbc : b = c
      · subst hbc
        simp only [if_neg hab] at h1 ⊢
        exact h1
      · simp only [if_neg hab] at h1
        simp only [if_neg hbc] at h2
        have hlt : a < c := lt_trans (of_decide_eq_true h1) (of_decide_eq_true h2)
        have hac : a ≠ c := ne_of_lt hlt
        simp only [if_neg hac]
        exact decide_eq_true hlt

/-- Totality of the `sort.Strings` character-list order. -/
theorem leChars_total :
    ∀ a b : List Char, leChars a b = true ∨ leChars b a = true
  | [], _ => Or.inl rfl
  | _ :: _, [] => Or.inr rfl
  | a :: as, b :: bs => by
    simp only [leChars]
    by_cases hab : a = b
    · subst hab
      simp only [if_pos rfl]
      exact leChars_total as bs
    · rcases lt_or_gt_of_ne hab with h | h
      · exact Or.inl (by simp only [if_neg hab]; exact decide_eq_true h)
      · refine Or.inr ?_
        have hba : b ≠ a := Ne.symm hab
        simp only [if_neg hba]
        exact decide_eq_true h

instance : IsTrans String LeStr :=
  ⟨fun a b c h1 h2 => leChars_trans a.data b.data c.data h1 h2⟩

instance : IsTotal String LeStr :=
  ⟨fun a b => leChars_total a.data b.data⟩

/-- `sortStrings` sorts with respect to the `sort.Strings` order. -/
theorem sortStrings_sorted (l : List String) : (sortStrings l).Sorted LeStr :=
  List.sorted_insertionSort LeStr l

/-- `sortStrings` permutes its input. -/
theorem sortStrings_perm (l : List String) : (sortStrings l).Perm l :=
  List.perm_insertionSort LeStr l

/-- Membership is preserved by `sortStrings`. -/
theorem mem_sortStrings (x : String) (l : List String) :
    x ∈ sortStrings l ↔ x ∈ l :=
  (sortStrings_perm l).mem_iff

theorem entriesOf_none {α : Type} : entriesOf (none : Option (List (String × α))) = [] :=
  rfl

theorem entriesOf_some {α : Type} (l : List (String × α)) : entriesOf (some l) = l :=
  rfl

/-- C10: for every pair of `ServersLoadBalancer` values, `Mergeable` returns
true exactly when the two values are structurally equal with both `Servers`
fields disregarded, and after the call both receivers hold the same `Servers`
values they held before it (the deferred restores always run). -/
theorem c10_mergeable_correct (l lb : ServersLoadBalancer) :
    ((ServersLoadBalancer.mergeable l lb).1 = true ↔
      ({ l with servers := [] } : ServersLoadBalancer) = { lb with servers := [] }) ∧
    (ServersLoadBalancer.mergeable l lb).2.1 = l ∧
    (ServersLoadBalancer.mergeable l lb).2.2 = lb := by
  refine ⟨?_, ?_, ?_⟩
  · simp [ServersLoadBalancer.mergeable]
  · cases l
    simp [ServersLoadBalancer.mergeable]
  · cases lb
    simp [ServersLoadBalancer.mergeable]

/-- C4 counterexample: when `CloseWrite` fails (half-close unsupported) and
`terminationDelay = 0` is non-negative, `connCopy` does not arm the read
deadline — it logs the close error and returns — contradicting the claim that
the deadline is armed "including in the case where the half-close is
unsupported". -/
theorem c4_deadline_counterexample :
    ¬ ((connCopy ⟨true, false⟩ 0).deadlineArmed = some 0) := by
  decide

/-- C4 (amended): after its copy finishes, `connCopy` half-closes the
destination via `CloseWrite` (never a full close), and arms a read deadline of
now plus `terminationDelay` exactly when `CloseWrite` succeeded and
`terminationDelay` is non-negative; when `CloseWrite` returns an error the
function logs it and returns without arming any deadline. -/
theorem c4_connCopy_halfclose_deadline (dst : ConnState) (d : Int) :
    (connCopy dst d).sentOnErrChan = true ∧
    (connCopy dst d).closeWriteCalled = true ∧
    (connCopy dst d).closeCalled = false ∧
    (connCopy dst d).deadlineArmed =
      (if dst.closeWriteFails = false ∧ 0 ≤ d then some d else none) := by
  rcases dst with ⟨cw, sd⟩
  cases cw <;> by_cases hd : 0 ≤ d <;>
    simp [connCopy, hd, ge_iff_le]

/-- C5: `AddError` on `RouterInfo` and on `ServiceInfo` deduplicates by error
message (a duplicate call changes nothing), a critical call on a new error
disables the entity, a non-critical call on a new error downgrades to warning
only when the entity is not already disabled, and the status rank in the order
`enabled -> warning -> disabled` never decreases. -/
theorem c5_addError_state_machine :
    (∀ (r : RouterInfo) (e : String) (c : Bool), e ∈ r.err → r.addError e c = r) ∧
    (∀ (s : ServiceInfo) (e : String) (c : Bool), e ∈ s.err → s.addError e c = s) ∧
    (∀ (r : RouterInfo) (e : String), e ∉ r.err →
      (r.addError e true).status = RuntimeStatusDisabled) ∧
    (∀ (s : ServiceInfo) (e : String), e ∉ s.err →
      (s.addError e true).status = RuntimeStatusDisabled) ∧
    (∀ (r : RouterInfo) (e : String), e ∉ r.err →
      (r.addError e false).status =
        (if r.status = RuntimeStatusDisabled then RuntimeStatusDisabled
         else RuntimeStatusWarning)) ∧
    (∀ (s : ServiceInfo) (e : String), e ∉ s.err →
      (s.addError e false).status =
        (if s.status = RuntimeStatusDisabled then RuntimeStatusDisabled
         else RuntimeStatusWarning)) ∧
    (∀ (r : RouterInfo) (e : String) (c : Bool),
      (r.status = RuntimeStatusEnabled ∨ r.status = RuntimeStatusWarning ∨
        r.status = RuntimeStatusDisabled) →
      statusRank r.status ≤ statusRank (r.addError e c).status) ∧
    (∀ (s : ServiceInfo) (e : String) (c : Bool),
      (s.status = RuntimeStatusEnabled ∨ s.status = RuntimeStatusWarning ∨
        s.status = RuntimeStatusDisabled) →
      statusRank s.status ≤ statusRank (s.addError e c).status) := by
  have hdupR : ∀ (r : RouterInfo) (e : String) (c : Bool), e ∈ r.err →
      r.addError e c = r := by
    intro r e c h
    unfold RouterInfo.addError
    simp [h]
  have hdupS : ∀ (s : ServiceInfo) (e : String) (c : Bool), e ∈ s.err →
      s.addError e c = s := by
    intro s e c h
    unfold ServiceInfo.addError
    simp [h]
  have hcritR : ∀ (r : RouterInfo) (e : String), e ∉ r.err →
      (r.addError e true).status = RuntimeStatusDisabled := by
    intro r e h
    unfold RouterInfo.addError
    simp [h]
  have hcritS : ∀ (s : ServiceInfo) (e : String), e ∉ s.err →
      (s.addError e true).status = RuntimeStatusDisabled := by
    intro s e h
    unfold ServiceInfo.addError
    simp [h]
  have hwarnR : ∀ (r : RouterInfo) (e : String), e ∉ r.err →
      (r.addError e false).status =
        (if r.status = RuntimeStatusDisabled then RuntimeStatusDisabled
         else RuntimeStatusWarning) := by
    intro r e h
    unfold RouterInfo.addError
    by_cases hst : r.status = RuntimeStatusDisabled <;> simp [h, hst]
  have hwarnS : ∀ (s : ServiceInfo) (e : String), e ∉ s.err →
      (s.addError e false).status =
        (if s.status = RuntimeStatusDisabled then RuntimeStatusDisabled
         else RuntimeStatusWarning) := by
    intro s e h
    unfold ServiceInfo.addError
    by_cases hst : s.status = RuntimeStatusDisabled <;> simp [h, hst]
  have hrank2 : ∀ s : String, statusRank s ≤ 2 := by
    intro s
    unfold statusRank
    split_ifs <;> omega
  refine ⟨hdupR, hdupS, hcritR, hcritS, hwarnR, hwarnS, ?_, ?_⟩
  · intro r e c hst
    by_cases hmem : e ∈ r.err
    · rw [hdupR r e c hmem]
    · cases c
      · rw [hwarnR r e hmem]
        rcases hst with h | h | h <;> rw [h] <;> decide
      · rw [hcritR r e hmem]
        exact le_trans (hrank2 _) (by decide)
  · intro s e c hst
    by_cases hmem : e ∈ s.err
    · rw [hdupS s e c hmem]
    · cases c
      · rw [hwarnS s e hmem]
        rcases hst with h | h | h <;> rw [h] <;> decide
      · rw [hcritS s e hmem]
        exact le_trans (hrank2 _) (by decide)

/-- C5 witness: concrete calls discharging each hypothesis of the `AddError`
state-machine theorem. -/
theorem c5_addError_state_machine_witness :
    (RouterInfo.addError ⟨routerW, ["x"], "enabled"⟩ "x" true = ⟨routerW, ["x"], "enabled"⟩) ∧
    (ServiceInfo.addError ⟨⟨none, none⟩, ["x"], "enabled", [], []⟩ "x" true =
      ⟨⟨none, none⟩, ["x"], "enabled", [], []⟩) ∧
    ((RouterInfo.addError ⟨routerW, [], "enabled"⟩ "y" true).status = RuntimeStatusDisabled) ∧
    ((ServiceInfo.addError ⟨⟨none, none⟩, [], "enabled", [], []⟩ "y" true).status =
      RuntimeStatusDisabled) ∧
    ((RouterInfo.addError ⟨routerW, [], "warning"⟩ "y" false).status =
      (if (RouterInfo.mk routerW [] "warning").status = RuntimeStatusDisabled
       then RuntimeStatusDisabled else RuntimeStatusWarning)) ∧
    ((ServiceInfo.addError ⟨⟨none, none⟩, [], "warning", [], []⟩ "y" false).status =
      (if (ServiceInfo.mk ⟨none, none⟩ [] "warning" [] []).status = RuntimeStatusDisabled
       then RuntimeStatusDisabled else RuntimeStatusWarning)) ∧
    (statusRank (RouterInfo.mk routerW [] "warning").status ≤
      statusRank ((RouterInfo.mk routerW [] "warning").addError "y" true).status) ∧
    (statusRank (ServiceInfo.mk ⟨none, none⟩ [] "warning" [] []).status ≤
      statusRank ((ServiceInfo.mk ⟨none, none⟩ [] "warning" [] []).addError "y" true).status) :=
  ⟨c5_addError_state_machine.1 ⟨routerW, ["x"], "enabled"⟩ "x" true (by decide),
   c5_addError_state_machine.2.1 ⟨⟨none, none⟩, ["x"], "enabled", [], []⟩ "x" true (by decide),
   c5_addError_state_machine.2.2.1 ⟨routerW, [], "enabled"⟩ "y" (by decide),
   c5_addError_state_machine.2.2.2.1 ⟨⟨none, none⟩, [], "enabled", [], []⟩ "y" (by decide),
   c5_addError_state_machine.2.2.2.2.1 ⟨routerW, [], "warning"⟩ "y" (by decide),
   c5_addError_state_machine.2.2.2.2.2.1 ⟨⟨none, none⟩, [], "warning", [], []⟩ "y" (by decide),
   c5_addError_state_machine.2.2.2.2.2.2.1 ⟨routerW, [], "warning"⟩ "y" true
     (Or.inr (Or.inl rfl)),
   c5_addError_state_machine.2.2.2.2.2.2.2 ⟨⟨none, none⟩, [], "warning", [], []⟩ "y" true
     (Or.inr (Or.inl rfl))⟩

/-- C1 counterexample: with rate-limit, max-connections, retry, buffering and
circuit-breaker all enabled, the resilience layers of the handler built by
`buildBalancerMiddlewares`, outer to inner, are not
rate-limit, max-connections, retry, buffering, circuit-breaker: each later
`lb = wrap(lb)` assignment wraps the earlier ones, so the order is reversed. -/
theorem c1_claimed_order_counterexample :
    ¬ (resilienceLayers (buildBalancerMiddlewares frontendAll backendAll (some ⟨3⟩)) =
      [MWLabel.rateLimit, MWLabel.maxConn, MWLabel.retryMW, MWLabel.buffering,
       MWLabel.circuitBreaker]) := by
  decide

/-- C1 (amended): for every configuration in which all five resilience
middlewares are enabled, a request entering the handler returned by
`buildBalancerMiddlewares` traverses, outer to inner, circuit-breaker, then
buffering, then retry, then max-connections, then rate-limit, then the
empty-backend guard, then the load balancer, then the forwarding handler. -/
theorem c1_chain_order (f : Frontend) (b : Backend) (gr : Option RetryConfig)
    (rl : RateLimit) (mc : MaxConn)
    (hrl : f.rateLimit = some rl) (hrlSet : rl.rateSet.length > 0)
    (hmc : b.maxConn = some mc) (hmcA : mc.amount ≠ 0)
    (hgr : gr.isSome = true) (hbuf : b.buffering.isSome = true)
    (hcb : b.circuitBreaker.isSome = true) :
    (buildBalancerMiddlewares f b gr).layers =
      [MWLabel.circuitBreaker, MWLabel.buffering, MWLabel.retryMW,
       MWLabel.maxConn, MWLabel.rateLimit, MWLabel.emptyBackend,
       MWLabel.loadBalancer, MWLabel.forward] := by
  rcases gr with _ | r
  · simp at hgr
  rcases b with ⟨bmc, bbuf, bcb⟩
  rcases bbuf with _ | bufv
  · simp at hbuf
  rcases bcb with _ | cbv
  · simp at hcb
  simp only at hmc
  subst hmc
  simp [buildBalancerMiddlewares, hrl, Handler.layers, hrlSet, hmcA]

/-- C1 witness: the amended ordering at a configuration with every resilience
middleware enabled. -/
theorem c1_chain_order_witness :
    frontendAll.rateLimit = some ⟨"client.ip", [⟨1, 10, 20⟩]⟩ ∧
    backendAll.maxConn = some ⟨7, "client.ip"⟩ ∧
    (buildBalancerMiddlewares frontendAll backendAll (some ⟨3⟩)).layers =
      [MWLabel.circuitBreaker, MWLabel.buffering, MWLabel.retryMW,
       MWLabel.maxConn, MWLabel.rateLimit, MWLabel.emptyBackend,
       MWLabel.loadBalancer, MWLabel.forward] :=
  ⟨rfl, rfl,
   c1_chain_order frontendAll backendAll (some ⟨3⟩) ⟨"client.ip", [⟨1, 10, 20⟩]⟩
     ⟨7, "client.ip"⟩ rfl (by decide) rfl (by decide) rfl rfl rfl⟩

/-- Channel-protocol invariant of `ServeTCP`: in every reachable state the
number of copy goroutines that have delivered their completion signal equals
the number of receives the `ServeTCP` body has completed. -/
theorem serveTCP_doneCount_eq_recvCount (s : ServeTCPState)
    (h : ServeTCPReachable s) : doneCount s = recvCount s := by
  induction h with
  | refl => rfl
  | tail _ step ih =>
    cases step with
    | firstFromClientCopy b =>
      cases b <;> simp_all [doneCount, recvCount]
    | firstFromBackendCopy a =>
      cases a <;> simp_all [doneCount, recvCount]
    | secondFromClientCopy b =>
      cases b <;> simp_all [doneCount, recvCount]
    | secondFromBackendCopy a =>
      cases a <;> simp_all [doneCount, recvCount]

/-- C3: `ServeTCP` returns only after both directional copy goroutines have
delivered their completion signal on the shared channel: in every reachable
state whose `ServeTCP` body has returned, both copy loops are finished. -/
theorem c3_serveTCP_returns_after_both_copies (s : ServeTCPState)
    (h : ServeTCPReachable s) (hret : s.main = MainPhase.returned) :
    s.copyClientToBackend = CopyPhase.done ∧
    s.copyBackendToClient = CopyPhase.done := by
  have hinv := serveTCP_doneCount_eq_recvCount s h
  rcases s with ⟨c1, c2, m⟩
  subst hret
  cases c1 <;> cases c2 <;> simp_all [doneCount, recvCount]

/-- C3 witness: an explicit execution of the protocol reaching a returned
state, to which the theorem applies. -/
theorem c3_serveTCP_returns_after_both_copies_witness :
    ServeTCPReachable ⟨CopyPhase.done, CopyPhase.done, MainPhase.returned⟩ ∧
    (ServeTCPState.mk CopyPhase.done CopyPhase.done MainPhase.returned).copyClientToBackend =
      CopyPhase.done ∧
    (ServeTCPState.mk CopyPhase.done CopyPhase.done MainPhase.returned).copyBackendToClient =
      CopyPhase.done := by
  have hchain : ServeTCPReachable ⟨CopyPhase.done, CopyPhase.done, MainPhase.returned⟩ :=
    Relation.ReflTransGen.tail
      (Relation.ReflTransGen.tail Relation.ReflTransGen.refl
        (ServeTCPStep.firstFromClientCopy CopyPhase.running))
      (ServeTCPStep.secondFromBackendCopy CopyPhase.done)
  exact ⟨hchain,
    c3_serveTCP_returns_after_both_copies ⟨CopyPhase.done, CopyPhase.done, MainPhase.returned⟩
      hchain rfl⟩

/-- C8 counterexample: `NewRuntimeConfig` does not wrap *each* entity with an
initial `Status = enabled`: the wrapper types for middlewares (and for TCP
routers/services) carry no `Status` field at all, so a configuration holding
one middleware yields a runtime configuration in which not every entity
carries the status `enabled`. -/
theorem c8_status_counterexample :
    ¬ (allEntitiesEnabled (newRuntimeConfig confMidOnly) = true) := by
  decide

/-- C8 (amended): `NewRuntimeConfig` is total (never fails); it wraps each
HTTP router and each HTTP service with initial `Status = enabled` (middleware
and TCP wrappers carry no status field); with both sections absent it returns
the fully empty structure (all maps nil); and each runtime map is allocated
exactly when its section is present and its source map is non-empty. -/
theorem c8_newRuntimeConfig_shape (conf : Configuration) :
    ((entriesOf (newRuntimeConfig conf).routers).all
      (fun p => p.2.status == RuntimeStatusEnabled) = true) ∧
    ((entriesOf (newRuntimeConfig conf).services).all
      (fun p => p.2.status == RuntimeStatusEnabled) = true) ∧
    (newRuntimeConfig ⟨none, none⟩ = ⟨none, none, none, none, none⟩) ∧
    ((newRuntimeConfig conf).routers.isSome =
      (match conf.http with
       | some h => decide (h.routers.length > 0)
       | none => false)) ∧
    ((newRuntimeConfig conf).services.isSome =
      (match conf.http with
       | some h => decide (h.services.length > 0)
       | none => false)) ∧
    ((newRuntimeConfig conf).middlewares.isSome =
      (match conf.http with
       | some h => decide (h.middlewares.length > 0)
       | none => false)) ∧
    ((newRuntimeConfig conf).tcpRouters.isSome =
      (match conf.tcp with
       | some t => decide (t.routers.length > 0)
       | none => false)) ∧
    ((newRuntimeConfig conf).tcpServices.isSome =
      (match conf.tcp with
       | some t => decide (t.services.length > 0)
       | none => false)) := by
  rcases conf with ⟨http, tcp⟩
  refine ⟨?_, ?_, rfl, ?_, ?_, ?_, ?_, ?_⟩ <;>
    cases http <;> cases tcp <;>
      simp [newRuntimeConfig, entriesOf] <;>
      try (split_ifs <;> simp_all [entriesOf, List.all_eq_true, List.mem_map])
  all_goals try (rintro a b x y _ rfl rfl; rfl)

/-- The allocation made by `ServerStatusHeap.alloc` does not disturb any live
cell. -/
theorem heap_get_alloc_of_lt (h : ServerStatusHeap) (v : List (String × String))
    (a : Nat) (ha : a < h.cells.length) : (h.alloc v).2.get a = h.get a := by
  unfold ServerStatusHeap.alloc ServerStatusHeap.get
  simp [List.getElem?_append, ha]

/-- Writing one heap cell does not disturb a different one. -/
theorem heap_get_set_ne (h : ServerStatusHeap) (a b : Nat)
    (v : List (String × String)) (hne : a ≠ b) : (h.set a v).get b = h.get b := by
  unfold ServerStatusHeap.set ServerStatusHeap.get
  rw [List.getElem?_set_ne hne]

/-- The fresh cell made by `alloc` holds the allocated value. -/
theorem heap_get_alloc_self (h : ServerStatusHeap) (v : List (String × String)) :
    (h.alloc v).2.get (h.alloc v).1 = v := by
  unfold ServerStatusHeap.alloc ServerStatusHeap.get
  simp

/-- C9: `GetAllStatus` returns a defensive copy, never the live map: the call
leaves the stored statuses untouched, the returned map is a fresh object
distinct from the stored one whose contents equal the stored statuses, and
overwriting the returned object changes neither the stored statuses nor what
any subsequent `GetAllStatus` call hands out; among the embedded `ServiceInfo`
operations, `AddError` never touches the stored per-server statuses. -/
theorem c9_getAllStatus_defensive (s : ServiceInfoRef) (h : ServerStatusHeap)
    (hwf : ∀ a, s.serverStatusAddr = some a → a < h.cells.length) :
    storedStatus s (getAllStatus s h).2 = storedStatus s h ∧
    (∀ a, (getAllStatus s h).1 = some a →
      s.serverStatusAddr ≠ some a ∧
      (getAllStatus s h).2.get a = storedStatus s h ∧
      (∀ v, storedStatus s (((getAllStatus s h).2).set a v) = storedStatus s h) ∧
      (∀ v, getAllStatusView s (((getAllStatus s h).2).set a v) =
        getAllStatusView s h)) ∧
    (∀ (si : ServiceInfo) (e : String) (c : Bool),
      (si.addError e c).serverStatus = si.serverStatus) := by
  have haddErr : ∀ (si : ServiceInfo) (e : String) (c : Bool),
      (si.addError e c).serverStatus = si.serverStatus := by
    intro si e c
    simp only [ServiceInfo.addError]
    split_ifs <;> rfl
  rcases hs : s.serverStatusAddr with _ | a0
  · -- nil stored map: the call returns nil and changes nothing
    refine ⟨?_, ?_, haddErr⟩
    · simp [getAllStatus, storedStatus, hs]
    · intro a ha
      simp [getAllStatus, hs] at ha
  · have ha0 : a0 < h.cells.length := hwf a0 hs
    by_cases hlen : (h.get a0).length = 0
    · -- empty stored map: the call returns nil and changes nothing
      refine ⟨?_, ?_, haddErr⟩
      · simp [getAllStatus, storedStatus, hs, hlen]
      · intro a ha
        simp [getAllStatus, hs, hlen] at ha
    · -- non-empty stored map: a fresh copy is allocated
      have hres : getAllStatus s h =
          (some (h.alloc (h.get a0)).1, (h.alloc (h.get a0)).2) := by
        simp [getAllStatus, hs, hlen]
      have hne : a0 ≠ (h.alloc (h.get a0)).1 := by
        unfold ServerStatusHeap.alloc
        omega
      have hstored2 : storedStatus s (h.alloc (h.get a0)).2 = storedStatus s h := by
        simp [storedStatus, hs, heap_get_alloc_of_lt h _ a0 ha0]
      refine ⟨by rw [hres]; exact hstored2, ?_, haddErr⟩
      intro a ha
      rw [hres] at ha
      simp only [Option.some.injEq] at ha
      subst ha
      have hstored : storedStatus s h = h.get a0 := by
        simp [storedStatus, hs]
      refine ⟨?_, ?_, ?_, ?_⟩
      · simp only [hs, ne_eq, Option.some.injEq, ServerStatusHeap.alloc]
        omega
      · rw [hres]
        rw [hstored, heap_get_alloc_self]
      · intro v
        rw [hres]
        simp [storedStatus, hs]
        rw [heap_get_set_ne _ _ _ _ (Ne.symm hne),
          heap_get_alloc_of_lt h _ a0 ha0]
      · intro v
        rw [hres]
        have hget : ((h.alloc (h.get a0)).2.set (h.alloc (h.get a0)).1 v).get a0 =
            h.get a0 := by
          rw [heap_get_set_ne _ _ _ _ (Ne.symm hne),
            heap_get_alloc_of_lt h _ a0 ha0]
        simp only [getAllStatusView, getAllStatus, hs, hget, hlen]
        simp [hlen, heap_get_alloc_self]

/-- C9 witness: the defensive-copy theorem applied to a service with a
one-entry stored status map. -/
theorem c9_getAllStatus_defensive_witness :
    storedStatus srefW (getAllStatus srefW heapW).2 = storedStatus srefW heapW ∧
    srefW.serverStatusAddr ≠ some 1 ∧
    (getAllStatus srefW heapW).2.get 1 = storedStatus srefW heapW ∧
    storedStatus srefW (((getAllStatus srefW heapW).2).set 1 [("u", "down")]) =
      storedStatus srefW heapW ∧
    getAllStatusView srefW (((getAllStatus srefW heapW).2).set 1 [("u", "down")]) =
      getAllStatusView srefW heapW := by
  have hwf : ∀ a, srefW.serverStatusAddr = some a → a < heapW.cells.length := by
    intro a ha
    simp only [srefW, Option.some.injEq] at ha
    subst ha
    decide
  have h := c9_getAllStatus_defensive srefW heapW hwf
  have h1 : (getAllStatus srefW heapW).1 = some 1 := by decide
  have h2 := h.2.1 1 h1
  exact ⟨h.1, h2.1, h2.2.1, h2.2.2.1 _, h2.2.2.2 _⟩

/-! ### Generic association-list lemmas -/

theorem alLookup_cons {α : Type} (a : String) (b : α) (t : List (String × α))
    (k : String) :
    alLookup ((a, b) :: t) k = if a = k then some b else alLookup t k := by
  by_cases h : a = k <;> simp [alLookup, List.find?_cons, h]

theorem alUpdate_cons {α : Type} (a : String) (b : α) (t : List (String × α))
    (k : String) (f : α → α) :
    alUpdate ((a, b) :: t) k f =
      (if a = k then (a, f b) else (a, b)) :: alUpdate t k f := by
  by_cases h : a = k <;> simp [alUpdate, h]

theorem alLookup_alUpdate {α : Type} (l : List (String × α)) (k : String)
    (f : α → α) (k' : String) :
    alLookup (alUpdate l k f) k' =
      if k' = k then (alLookup l k').map f else alLookup l k' := by
  induction l with
  | nil =>
    simp [alLookup, alUpdate]
  | cons p t ih =>
    rcases p with ⟨a, b⟩
    rw [alUpdate_cons]
    by_cases hak : a = k
    · subst hak
      by_cases hk' : a = k'
      · subst hk'
        simp [alLookup_cons]
      · simp [alLookup_cons, hk', ih, fun h : k' = a => hk' h.symm]
    · by_cases hak' : a = k'
      · subst hak'
        simp [alLookup_cons, fun h : a = k => hak h]
      · simp [alLookup_cons, hak, hak', ih]

theorem alLookup_append_single {α : Type} (l : List (String × α)) (k : String)
    (v : α) (k' : String) :
    alLookup (l ++ [(k, v)]) k' =
      if (alLookup l k').isSome then alLookup l k'
      else if k = k' then some v else none := by
  induction l with
  | nil =>
    simp [alLookup_cons, alLookup]
  | cons p t ih =>
    rcases p with ⟨a, b⟩
    by_cases h : a = k' <;>
      simp [List.cons_append, alLookup_cons, h, ih]

theorem alLookup_alInsert {α : Type} (l : List (String × α)) (k : String)
    (v : α) (k' : String) :
    alLookup (alInsert l k v) k' = if k' = k then some v else alLookup l k' := by
  unfold alInsert
  by_cases h : (alLookup l k).isSome
  · rw [if_pos h, alLookup_alUpdate]
    by_cases hk : k' = k
    · subst hk
      rcases Option.isSome_iff_exists.mp h with ⟨x, hx⟩
      simp [hx]
    · simp [hk]
  · rw [if_neg h, alLookup_append_single]
    by_cases hk : k' = k
    · subst hk
      simp [Option.not_isSome_iff_eq_none.mp h]
    · by_cases hs : (alLookup l k').isSome
      · simp [hs, hk]
      · rw [if_neg hs, if_neg (fun hh : k = k' => hk hh.symm), if_neg hk]
        exact (Option.not_isSome_iff_eq_none.mp hs).symm

theorem alKeys_alUpdate {α : Type} (l : List (String × α)) (k : String)
    (f : α → α) : alKeys (alUpdate l k f) = alKeys l := by
  induction l with
  | nil => rfl
  | cons p t ih =>
    rcases p with ⟨a, b⟩
    rw [alUpdate_cons]
    by_cases h : a = k <;> simp [alKeys, h] <;>
      simpa [alKeys] using ih

theorem lookIn_updIn {α : Type} (m : Option (List (String × α))) (k : String)
    (f : α → α) (k' : String) :
    lookIn (updIn m k f) k' =
      if k' = k then (lookIn m k').map f else lookIn m k' := by
  cases m with
  | none => simp [lookIn, updIn]
  | some l => simp [lookIn, updIn, alLookup_alUpdate]

theorem lookIn_updIn_isSome {α : Type} (m : Option (List (String × α)))
    (k : String) (f : α → α) (k' : String) :
    (lookIn (updIn m k f) k').isSome = (lookIn m k').isSome := by
  rw [lookIn_updIn]
  by_cases h : k' = k <;> simp [h]

/-- Key-preserving value maps commute with `lookIn`. -/
theorem lookIn_mapVals {α β : Type} (m : Option (List (String × α)))
    (g : α → β) (k : String) :
    lookIn (m.map (List.map (fun p => (p.1, g p.2)))) k = (lookIn m k).map g := by
  cases m with
  | none => rfl
  | some l =>
    induction l with
    | nil => rfl
    | cons p t ih =>
      rcases p with ⟨a, b⟩
      have ih' : alLookup (t.map (fun p => (p.1, g p.2))) k =
          (alLookup t k).map g := by
        simpa [lookIn] using ih
      by_cases h : a = k <;>
        simp [lookIn, alLookup_cons, h, ih']

/-! ### GetRoutersByEntryPoints lemmas -/

theorem containsName_iff (l : List String) (x : String) :
    containsName l x = true ↔ x ∈ l := by
  induction l with
  | nil => simp [containsName]
  | cons a t ih =>
    by_cases h : a = x
    · simp [containsName, h]
    · simp [containsName, h, ih, List.mem_cons, Ne.symm h]

theorem tlsSkip_false_iff (tls : Bool) (ri : RouterInfo) :
    tlsSkip tls ri = false ↔ ri.router.tls.isSome = tls := by
  cases tls <;> cases htls : ri.router.tls <;> simp [tlsSkip, htls]

theorem lookup2_insertEP (acc : List (String × List (String × RouterInfo)))
    (ep rn : String) (ri : RouterInfo) (ep' rn' : String) :
    lookup2 (insertEP acc ep rn ri) ep' rn' =
      if ep' = ep ∧ rn' = rn then some ri else lookup2 acc ep' rn' := by
  unfold insertEP lookup2
  by_cases hep : ep' = ep
  · subst hep
    by_cases hacc : (alLookup acc ep').isSome
    · rw [if_pos hacc, alLookup_alUpdate, if_pos rfl]
      rcases Option.isSome_iff_exists.mp hacc with ⟨inner, hin⟩
      rw [hin]
      by_cases hrn : rn' = rn <;>
        simp [alLookup_alInsert, hrn]
    · rw [if_neg hacc, alLookup_append_single, if_neg hacc, if_pos rfl,
        Option.not_isSome_iff_eq_none.mp hacc]
      by_cases hrn : rn' = rn
      · simp [alLookup_cons, hrn]
      · simp [alLookup, alLookup_cons, hrn, Ne.symm hrn]
  · have hcond : ¬(ep' = ep ∧ rn' = rn) := fun h => hep h.1
    rw [if_neg hcond]
    by_cases hacc : (alLookup acc ep).isSome
    · rw [if_pos hacc, alLookup_alUpdate, if_neg hep]
    · rw [if_neg hacc, alLookup_append_single,
        if_neg (fun h : ep = ep' => hep h.symm)]
      by_cases hs : (alLookup acc ep').isSome
      · rw [if_pos hs]
      · rw [if_neg hs, Option.not_isSome_iff_eq_none.mp hs]

theorem alLookup_insertEP_ne (acc : List (String × List (String × RouterInfo)))
    (ep rn : String) (ri : RouterInfo) (ep' : String) (hne : ep' ≠ ep) :
    alLookup (insertEP acc ep rn ri) ep' = alLookup acc ep' := by
  unfold insertEP
  by_cases hacc : (alLookup acc ep).isSome
  · rw [if_pos hacc, alLookup_alUpdate, if_neg hne]
  · rw [if_neg hacc, alLookup_append_single,
      if_neg (fun h : ep = ep' => hne h.symm)]
    by_cases hs : (alLookup acc ep').isSome
    · rw [if_pos hs]
    · rw [if_neg hs, Option.not_isSome_iff_eq_none.mp hs]

/-- Effect of one router's entry-point loop on the two-level lookup. -/
theorem lookup2_epFold (supplied : List String) (rn : String) (ri : RouterInfo) :
    ∀ (eps : List String) (acc : List (String × List (String × RouterInfo)))
      (ep' rn' : String),
    lookup2 (eps.foldl (fun acc ep =>
        if containsName supplied ep then insertEP acc ep rn ri else acc) acc) ep' rn' =
      if rn' = rn ∧ ep' ∈ eps ∧ containsName supplied ep' = true then some ri
      else lookup2 acc ep' rn' := by
  intro eps
  induction eps with
  | nil =>
    intro acc ep' rn'
    simp
  | cons e rest ih =>
    intro acc ep' rn'
    simp only [List.foldl_cons]
    rw [ih]
    by_cases hrn : rn' = rn
    · subst hrn
      by_cases heq : ep' = e
      · subst heq
        by_cases hct : containsName supplied ep' = true <;>
          by_cases hmem : ep' ∈ rest <;>
            simp [hct, hmem, lookup2_insertEP]
      · by_cases hce : containsName supplied e = true <;>
          by_cases hct : containsName supplied ep' = true <;>
            by_cases hmem : ep' ∈ rest <;>
              simp [hce, hct, hmem, heq, lookup2_insertEP, List.mem_cons]
    · have h1 : ¬(rn' = rn ∧ ep' ∈ rest ∧ containsName supplied ep' = true) :=
        fun h => hrn h.1
      have h2 : ¬(rn' = rn ∧ ep' ∈ e :: rest ∧ containsName supplied ep' = true) :=
        fun h => hrn h.1
      rw [if_neg h1, if_neg h2]
      by_cases hce : containsName supplied e = true
      · rw [if_pos hce, lookup2_insertEP, if_neg (fun h => hrn h.2)]
      · rw [if_neg hce]

/-- The entry-point loop never adds partitions for unknown entry points. -/
theorem alLookup_epFold_notContains (supplied : List String) (rn : String)
    (ri : RouterInfo) :
    ∀ (eps : List String) (acc : List (String × List (String × RouterInfo)))
      (ep' : String), containsName supplied ep' = false →
    alLookup (eps.foldl (fun acc ep =>
        if containsName supplied ep then insertEP acc ep rn ri else acc) acc) ep' =
      alLookup acc ep' := by
  intro eps
  induction eps with
  | nil =>
    intro acc ep' _
    rfl
  | cons e rest ih =>
    intro acc ep' hep'
    simp only [List.foldl_cons]
    rw [ih _ _ hep']
    by_cases hce : containsName supplied e = true
    · rw [if_pos hce, alLookup_insertEP_ne]
      intro h
      subst h
      rw [hep'] at hce
      exact Bool.noConfusion hce
    · rw [if_neg hce]

theorem alKeys_cons {α : Type} (a : String) (b : α) (t : List (String × α)) :
    alKeys ((a, b) :: t) = a :: alKeys t :=
  rfl

theorem alLookup_eq_none_of_not_mem {α : Type} (l : List (String × α))
    (k : String) (h : k ∉ alKeys l) : alLookup l k = none := by
  induction l with
  | nil => rfl
  | cons p t ih =>
    rcases p with ⟨a, b⟩
    rw [alKeys_cons, List.mem_cons] at h
    push_neg at h
    rw [alLookup_cons, if_neg (fun hh : a = k => h.1 hh.symm)]
    exact ih h.2

theorem alLookup_of_mem_nodup {α : Type} (l : List (String × α)) (k : String)
    (v : α) (hmem : (k, v) ∈ l) (hnd : (alKeys l).Nodup) :
    alLookup l k = some v := by
  induction l with
  | nil => cases hmem
  | cons p t ih =>
    rcases p with ⟨a, b⟩
    rw [alKeys_cons] at hnd
    rcases List.mem_cons.mp hmem with h | h
    · injection h with h1 h2
      subst h1
      subst h2
      rw [alLookup_cons, if_pos rfl]
    · have hk : a ≠ k := by
        intro hak
        subst hak
        exact (List.nodup_cons.mp hnd).1 (List.mem_map.mpr ⟨(a, v), h, rfl⟩)
      rw [alLookup_cons, if_neg hk]
      exact ih h (List.nodup_cons.mp hnd).2

/-- Characterization of the router loop of `GetRoutersByEntryPoints` on maps
with no duplicate router keys. -/
theorem lookup2_routersFold (supplied : List String) (tls : Bool) :
    ∀ (rs : List (String × RouterInfo))
      (acc : List (String × List (String × RouterInfo))) (ep rn : String),
      (alKeys rs).Nodup →
    lookup2 (rs.foldl (processRouterEP supplied tls) acc) ep rn =
      (match alLookup rs rn with
       | some ri =>
         if tlsSkip tls ri = false ∧ ep ∈ effectiveEPs supplied ri ∧
             containsName supplied ep = true
         then some ri else lookup2 acc ep rn
       | none => lookup2 acc ep rn) := by
  intro rs
  induction rs with
  | nil =>
    intro acc ep rn _
    rfl
  | cons p t ih =>
    intro acc ep rn hnd
    rcases p with ⟨a, ri0⟩
    rw [alKeys_cons] at hnd
    rw [List.foldl_cons, ih _ ep rn (List.nodup_cons.mp hnd).2]
    by_cases hk : a = rn
    · subst hk
      have hnotin : alLookup t a = none :=
        alLookup_eq_none_of_not_mem t a (List.nodup_cons.mp hnd).1
      rw [hnotin, alLookup_cons, if_pos rfl]
      show lookup2 (processRouterEP supplied tls acc (a, ri0)) ep a =
        (if tlsSkip tls ri0 = false ∧ ep ∈ effectiveEPs supplied ri0 ∧
            containsName supplied ep = true
         then some ri0 else lookup2 acc ep a)
      unfold processRouterEP
      by_cases hskip : tlsSkip tls ri0 = true
      · rw [if_pos hskip, if_neg (fun h => by simp [hskip] at h)]
      · rw [if_neg hskip]
        unfold insertRouterEPs
        rw [lookup2_epFold]
        have hfalse : tlsSkip tls ri0 = false := by
          cases hb : tlsSkip tls ri0
          · rfl
          · exact absurd hb hskip
        by_cases heff : ep ∈ effectiveEPs supplied ri0 <;>
          by_cases hct : containsName supplied ep = true <;>
            simp [hfalse, heff, hct]
    · have hpres : lookup2 (processRouterEP supplied tls acc (a, ri0)) ep rn =
          lookup2 acc ep rn := by
        unfold processRouterEP
        by_cases hskip : tlsSkip tls ri0 = true
        · rw [if_pos hskip]
        · rw [if_neg hskip]
          unfold insertRouterEPs
          rw [lookup2_epFold, if_neg (fun h => hk h.1.symm)]
      rw [alLookup_cons, if_neg hk]
      simp only [hpres]

/-- The router loop never creates partitions for unknown entry points. -/
theorem alLookup_routersFold_notContains (supplied : List String) (tls : Bool) :
    ∀ (rs : List (String × RouterInfo))
      (acc : List (String × List (String × RouterInfo))) (ep : String),
      containsName supplied ep = false →
    alLookup (rs.foldl (processRouterEP supplied tls) acc) ep = alLookup acc ep := by
  intro rs
  induction rs with
  | nil =>
    intro acc ep _
    rfl
  | cons p t ih =>
    intro acc ep hep
    rw [List.foldl_cons, ih _ ep hep]
    unfold processRouterEP
    by_cases hskip : tlsSkip tls p.2 = true
    · rw [if_pos hskip]
    · rw [if_neg hskip]
      unfold insertRouterEPs
      rw [alLookup_epFold_notContains supplied p.1 p.2 _ acc ep hep]

/-- C6: `GetRoutersByEntryPoints` partitions the routers so that: every entry
of a partition declares TLS exactly matching the requested `tls` flag; a
TLS-mismatched router is absent from every partition; a TLS-matching router
appears under each of its effective entry points present in the supplied set
(in particular a router with an empty entry-point list inherits the full
supplied set); entry-point names absent from the supplied set produce no
partition (they are dropped after a logged error) while the router still
appears under its other, known entry points. -/
theorem c6_getRoutersByEntryPoints_partition (cfg : RuntimeConfiguration)
    (supplied : List String) (tls : Bool)
    (hnd : (alKeys (entriesOf cfg.routers)).Nodup) :
    (∀ ep rn ri,
      lookup2 (getRoutersByEntryPoints cfg supplied tls) ep rn = some ri →
      ri.router.tls.isSome = tls) ∧
    (∀ rn ri, (rn, ri) ∈ entriesOf cfg.routers → tlsSkip tls ri = true →
      ∀ ep, lookup2 (getRoutersByEntryPoints cfg supplied tls) ep rn = none) ∧
    (∀ rn ri, (rn, ri) ∈ entriesOf cfg.routers → tlsSkip tls ri = false →
      ∀ ep, ep ∈ effectiveEPs supplied ri → ep ∈ supplied →
        lookup2 (getRoutersByEntryPoints cfg supplied tls) ep rn = some ri) ∧
    (∀ ep, ep ∉ supplied →
      alLookup (getRoutersByEntryPoints cfg supplied tls) ep = none) := by
  unfold getRoutersByEntryPoints
  have hbase : ∀ ep rn, lookup2 [] ep rn = none := by
    intro ep rn
    rfl
  refine ⟨?_, ?_, ?_, ?_⟩
  · intro ep rn ri hsome
    rw [lookup2_routersFold supplied tls _ [] ep rn hnd] at hsome
    cases hlook : alLookup (entriesOf cfg.routers) rn with
    | none =>
      rw [hlook] at hsome
      exact Option.noConfusion hsome
    | some ri0 =>
      rw [hlook] at hsome
      replace hsome : (if tlsSkip tls ri0 = false ∧ ep ∈ effectiveEPs supplied ri0 ∧
          containsName supplied ep = true
        then some ri0 else lookup2 [] ep rn) = some ri := hsome
      by_cases hcond : tlsSkip tls ri0 = false ∧ ep ∈ effectiveEPs supplied ri0 ∧
          containsName supplied ep = true
      · rw [if_pos hcond] at hsome
        injection hsome with h
        subst h
        exact (tlsSkip_false_iff tls ri0).mp hcond.1
      · rw [if_neg hcond, hbase] at hsome
        exact Option.noConfusion hsome
  · intro rn ri hmem hskip ep
    rw [lookup2_routersFold supplied tls _ [] ep rn hnd,
      alLookup_of_mem_nodup _ _ _ hmem hnd]
    show (if tlsSkip tls ri = false ∧ ep ∈ effectiveEPs supplied ri ∧
        containsName supplied ep = true
      then some ri else lookup2 [] ep rn) = none
    rw [if_neg (fun h => by simp [hskip] at h)]
    exact hbase ep rn
  · intro rn ri hmem hfalse ep heff hsup
    rw [lookup2_routersFold supplied tls _ [] ep rn hnd,
      alLookup_of_mem_nodup _ _ _ hmem hnd]
    show (if tlsSkip tls ri = false ∧ ep ∈ effectiveEPs supplied ri ∧
        containsName supplied ep = true
      then some ri else lookup2 [] ep rn) = some ri
    rw [if_pos ⟨hfalse, heff, (containsName_iff supplied ep).mpr hsup⟩]
  · intro ep hsup
    rw [alLookup_routersFold_notContains supplied tls _ [] ep]
    · rfl
    · cases hb : containsName supplied ep
      · rfl
      · exact absurd ((containsName_iff supplied ep).mp hb) hsup

/-- C6 witness: the partition theorem applied to a configuration with one
non-TLS router with an empty entry-point list, requested with `tls = false`
over the entry points `web` and `websecure`. -/
theorem c6_getRoutersByEntryPoints_partition_witness :
    ((alKeys (entriesOf cfgEP.routers)).Nodup) ∧
    lookup2 (getRoutersByEntryPoints cfgEP ["web", "websecure"] false) "web" "r@p" =
      some ⟨⟨[], [], "s", "", 0, none⟩, [], "enabled"⟩ ∧
    lookup2 (getRoutersByEntryPoints cfgEP ["web", "websecure"] false) "websecure" "r@p" =
      some ⟨⟨[], [], "s", "", 0, none⟩, [], "enabled"⟩ ∧
    alLookup (getRoutersByEntryPoints cfgEP ["web", "websecure"] false) "other" = none := by
  have hnd : (alKeys (entriesOf cfgEP.routers)).Nodup := by
    simp [cfgEP, entriesOf, alKeys]
  have h := c6_getRoutersByEntryPoints_partition cfgEP ["web", "websecure"] false hnd
  refine ⟨hnd, ?_, ?_, ?_⟩
  · exact h.2.2.1 "r@p" ⟨⟨[], [], "s", "", 0, none⟩, [], "enabled"⟩ (by decide)
      (by decide) "web" (by decide) (by decide)
  · exact h.2.2.1 "r@p" ⟨⟨[], [], "s", "", 0, none⟩, [], "enabled"⟩ (by decide)
      (by decide) "websecure" (by decide) (by decide)
  · exact h.2.2.2 "other" (by decide)

/-! ### PopulateUsedBy lemmas -/

theorem alUpdate_append {α : Type} (l₁ l₂ : List (String × α)) (k : String)
    (f : α → α) : alUpdate (l₁ ++ l₂) k f = alUpdate l₁ k f ++ alUpdate l₂ k f := by
  simp [alUpdate]

theorem alUpdate_eq_self_of_disjoint {α : Type} (l : List (String × α))
    (k : String) (f : α → α) (h : ∀ p ∈ l, p.1 ≠ k) : alUpdate l k f = l := by
  induction l with
  | nil => rfl
  | cons p t ih =>
    rw [show p :: t = [p] ++ t from rfl, alUpdate_append, ih (fun q hq => h q (List.mem_cons_of_mem p hq))]
    rcases p with ⟨a, b⟩
    rw [alUpdate_cons, if_neg (h (a, b) (List.mem_cons_self _ _))]
    rfl

/-- Effect of one router's middleware loop on the lookup for middleware `m`. -/
theorem lookIn_linkRouterMids (provider routerName : String) (m : String) :
    ∀ (refs : List String) (mids : Option (List (String × MiddlewareInfo))),
    lookIn (linkRouterMids mids provider routerName refs) m =
      (lookIn mids m).map (fun mi =>
        { mi with usedBy := mi.usedBy ++ (refs.filter (fun ref => getQualifiedName provider ref == m)).map (fun _ => routerName) }) := by
  intro refs
  induction refs with
  | nil =>
    intro mids
    cases h : lookIn mids m with
    | none => simp [linkRouterMids, h]
    | some mi => simp [linkRouterMids, h]
  | cons ref rest ih =>
    intro mids
    show lookIn (linkRouterMids
        (if (lookIn mids (getQualifiedName provider ref)).isSome then
          updIn mids (getQualifiedName provider ref)
            (fun mi => { mi with usedBy := mi.usedBy ++ [routerName] })
         else mids) provider routerName rest) m = _
    rw [ih]
    by_cases hm : getQualifiedName provider ref = m
    · subst hm
      by_cases hsome : (lookIn mids (getQualifiedName provider ref)).isSome
      · rw [if_pos hsome, lookIn_updIn, if_pos rfl]
        cases h : lookIn mids (getQualifiedName provider ref) with
        | none => simp [h] at hsome
        | some mi => simp [List.filter_cons, h]
      · rw [if_neg hsome]
        rw [Option.not_isSome_iff_eq_none] at hsome
        simp [hsome]
    · have hbeq : (getQualifiedName provider ref == m) = false := by
        simp [hm]
      by_cases hsome : (lookIn mids (getQualifiedName provider ref)).isSome
      · rw [if_pos hsome, lookIn_updIn, if_neg (fun h : m = _ => hm h.symm)]
        simp [List.filter_cons, hbeq]
      · rw [if_neg hsome]
        simp [List.filter_cons, hbeq]

theorem processRouter_routers (r : RuntimeConfiguration) (p : String × RouterInfo) :
    (processRouter r p).routers =
      (if p.2.status = "" then
        updIn r.routers p.1 (fun ri => { ri with status := RuntimeStatusEnabled })
       else r.routers) := by
  unfold processRouter
  by_cases h1 : p.2.status = "" <;>
    by_cases h2 : getProviderName p.1 = "" <;>
      simp only [h1, h2, if_pos, if_neg, if_true, if_false] <;>
      split_ifs <;> rfl

theorem processRouter_tcpRouters (r : RuntimeConfiguration)
    (p : String × RouterInfo) : (processRouter r p).tcpRouters = r.tcpRouters := by
  simp only [processRouter]
  split_ifs <;> rfl

theorem processRouter_tcpServices (r : RuntimeConfiguration)
    (p : String × RouterInfo) : (processRouter r p).tcpServices = r.tcpServices := by
  simp only [processRouter]
  split_ifs <;> rfl

theorem processRouter_mids (r : RuntimeConfiguration) (p : String × RouterInfo)
    (m : String) :
    lookIn (processRouter r p).middlewares m =
      (lookIn r.middlewares m).map (fun mi =>
        { mi with usedBy := mi.usedBy ++ routerMidContrib m p }) := by
  simp only [processRouter, routerMidContrib]
  by_cases h2 : getProviderName p.1 = ""
  · simp only [h2, if_pos, if_true]
    cases h : lookIn r.middlewares m with
    | none => split_ifs <;> simp [h]
    | some mi => split_ifs <;> simp [h]
  · simp only [h2, if_neg, if_false]
    split_ifs <;>
      simp [lookIn_linkRouterMids, h2]

/-- Effect of the guarded `UsedBy` append on a service map lookup. -/
theorem lookIn_svcStep (s : String) (svcs : Option (List (String × ServiceInfo)))
    (sn rn : String) :
    lookIn (if (lookIn svcs sn).isSome then updIn svcs sn (fun si => { si with usedBy := si.usedBy ++ [rn] }) else svcs) s =
      (lookIn svcs s).map (fun si => { si with usedBy := si.usedBy ++ (if sn = s then [rn] else []) }) := by
  by_cases hq : sn = s
  · subst hq
    by_cases hsome : (lookIn svcs sn).isSome
    · rw [if_pos hsome, lookIn_updIn, if_pos rfl]
      simp
    · rw [if_neg hsome]
      rw [Option.not_isSome_iff_eq_none] at hsome
      simp [hsome]
  · by_cases hsome : (lookIn svcs sn).isSome
    · rw [if_pos hsome, lookIn_updIn, if_neg (fun hh : s = sn => hq hh.symm),
        if_neg hq]
      cases h : lookIn svcs s <;> simp [h]
    · rw [if_neg hsome, if_neg hq]
      cases h : lookIn svcs s <;> simp [h]

theorem processRouter_svcs (r : RuntimeConfiguration) (p : String × RouterInfo)
    (s : String) :
    lookIn (processRouter r p).services s =
      (lookIn r.services s).map (fun si =>
        { si with usedBy := si.usedBy ++ routerSvcContrib s p }) := by
  rcases p with ⟨rn, ri⟩
  have hS : (if ri.status = "" then ({ r with routers := updIn r.routers rn (fun x => { x with status := RuntimeStatusEnabled }) } : RuntimeConfiguration) else r).services = r.services := by
    split_ifs <;> rfl
  simp only [processRouter, routerSvcContrib]
  by_cases c2 : getProviderName rn = ""
  · rw [if_pos c2, hS, if_pos c2]
    cases h : lookIn r.services s <;> simp [h]
  · rw [if_neg c2, if_neg c2, apply_ite RuntimeConfiguration.services]
    simp only [hS]
    rw [lookIn_svcStep]

theorem processTCPRouter_routers (r : RuntimeConfiguration)
    (p : String × TCPRouterInfo) : (processTCPRouter r p).routers = r.routers := by
  simp only [processTCPRouter]
  split_ifs <;> rfl

theorem processTCPRouter_middlewares (r : RuntimeConfiguration)
    (p : String × TCPRouterInfo) :
    (processTCPRouter r p).middlewares = r.middlewares := by
  simp only [processTCPRouter]
  split_ifs <;> rfl

theorem processTCPRouter_services (r : RuntimeConfiguration)
    (p : String × TCPRouterInfo) : (processTCPRouter r p).services = r.services := by
  simp only [processTCPRouter]
  split_ifs <;> rfl

theorem processTCPRouter_tcpRouters (r : RuntimeConfiguration)
    (p : String × TCPRouterInfo) :
    (processTCPRouter r p).tcpRouters = r.tcpRouters := by
  simp only [processTCPRouter]
  split_ifs <;> rfl

/-- Effect of the guarded `UsedBy` append on a TCP service map lookup. -/
theorem lookIn_tcpSvcStep (s : String)
    (svcs : Option (List (String × TCPServiceInfo))) (sn rn : String) :
    lookIn (if (lookIn svcs sn).isSome then updIn svcs sn (fun ti => { ti with usedBy := ti.usedBy ++ [rn] }) else svcs) s =
      (lookIn svcs s).map (fun ti => { ti with usedBy := ti.usedBy ++ (if sn = s then [rn] else []) }) := by
  by_cases hq : sn = s
  · subst hq
    by_cases hsome : (lookIn svcs sn).isSome
    · rw [if_pos hsome, lookIn_updIn, if_pos rfl]
      simp
    · rw [if_neg hsome]
      rw [Option.not_isSome_iff_eq_none] at hsome
      simp [hsome]
  · by_cases hsome : (lookIn svcs sn).isSome
    · rw [if_pos hsome, lookIn_updIn, if_neg (fun hh : s = sn => hq hh.symm),
        if_neg hq]
      cases h : lookIn svcs s <;> simp [h]
    · rw [if_neg hsome, if_neg hq]
      cases h : lookIn svcs s <;> simp [h]

theorem processTCPRouter_tcpsvcs (r : RuntimeConfiguration)
    (p : String × TCPRouterInfo) (s : String) :
    lookIn (processTCPRouter r p).tcpServices s =
      (lookIn r.tcpServices s).map (fun ti =>
        { ti with usedBy := ti.usedBy ++ tcpSvcContrib s p }) := by
  rcases p with ⟨rn, ri⟩
  simp only [processTCPRouter, tcpSvcContrib]
  by_cases c2 : getProviderName rn = ""
  · rw [if_pos c2, if_pos c2]
    cases h : lookIn r.tcpServices s <;> simp [h]
  · rw [if_neg c2, if_neg c2, apply_ite RuntimeConfiguration.tcpServices]
    rw [lookIn_tcpSvcStep]

theorem foldR_svcs :
    ∀ (rs : List (String × RouterInfo)) (r : RuntimeConfiguration) (s : String),
    lookIn ((rs.foldl processRouter r).services) s =
      (lookIn r.services s).map (fun si =>
        { si with usedBy := si.usedBy ++ rs.flatMap (routerSvcContrib s) }) := by
  intro rs
  induction rs with
  | nil =>
    intro r s
    cases h : lookIn r.services s <;> simp [h]
  | cons p t ih =>
    intro r s
    rw [List.foldl_cons, ih, processRouter_svcs]
    cases h : lookIn r.services s <;>
      simp [h, List.flatMap_cons, List.append_assoc]

theorem foldR_mids :
    ∀ (rs : List (String × RouterInfo)) (r : RuntimeConfiguration) (m : String),
    lookIn ((rs.foldl processRouter r).middlewares) m =
      (lookIn r.middlewares m).map (fun mi =>
        { mi with usedBy := mi.usedBy ++ rs.flatMap (routerMidContrib m) }) := by
  intro rs
  induction rs with
  | nil =>
    intro r m
    cases h : lookIn r.middlewares m <;> simp [h]
  | cons p t ih =>
    intro r m
    rw [List.foldl_cons, ih, processRouter_mids]
    cases h : lookIn r.middlewares m <;>
      simp [h, List.flatMap_cons, List.append_assoc]

theorem foldR_routers :
    ∀ (rs : List (String × RouterInfo)) (r : RuntimeConfiguration),
    (rs.foldl processRouter r).routers =
      rs.foldl (fun m p => if p.2.status = "" then updIn m p.1 (fun x => { x with status := RuntimeStatusEnabled }) else m) r.routers := by
  intro rs
  induction rs with
  | nil => intro r; rfl
  | cons p t ih =>
    intro r
    rw [List.foldl_cons, List.foldl_cons, ih, processRouter_routers]

theorem foldR_tcpRouters :
    ∀ (rs : List (String × RouterInfo)) (r : RuntimeConfiguration),
    (rs.foldl processRouter r).tcpRouters = r.tcpRouters := by
  intro rs
  induction rs with
  | nil => intro r; rfl
  | cons p t ih =>
    intro r
    rw [List.foldl_cons, ih, processRouter_tcpRouters]

theorem foldR_tcpServices :
    ∀ (rs : List (String × RouterInfo)) (r : RuntimeConfiguration),
    (rs.foldl processRouter r).tcpServices = r.tcpServices := by
  intro rs
  induction rs with
  | nil => intro r; rfl
  | cons p t ih =>
    intro r
    rw [List.foldl_cons, ih, processRouter_tcpServices]

theorem foldTCP_routers :
    ∀ (rs : List (String × TCPRouterInfo)) (r : RuntimeConfiguration),
    (rs.foldl processTCPRouter r).routers = r.routers := by
  intro rs
  induction rs with
  | nil => intro r; rfl
  | cons p t ih =>
    intro r
    rw [List.foldl_cons, ih, processTCPRouter_routers]

theorem foldTCP_middlewares :
    ∀ (rs : List (String × TCPRouterInfo)) (r : RuntimeConfiguration),
    (rs.foldl processTCPRouter r).middlewares = r.middlewares := by
  intro rs
  induction rs with
  | nil => intro r; rfl
  | cons p t ih =>
    intro r
    rw [List.foldl_cons, ih, processTCPRouter_middlewares]

theorem foldTCP_services :
    ∀ (rs : List (String × TCPRouterInfo)) (r : RuntimeConfiguration),
    (rs.foldl processTCPRouter r).services = r.services := by
  intro rs
  induction rs with
  | nil => intro r; rfl
  | cons p t ih =>
    intro r
    rw [List.foldl_cons, ih, processTCPRouter_services]

theorem foldTCP_tcpRouters :
    ∀ (rs : List (String × TCPRouterInfo)) (r : RuntimeConfiguration),
    (rs.foldl processTCPRouter r).tcpRouters = r.tcpRouters := by
  intro rs
  induction rs with
  | nil => intro r; rfl
  | cons p t ih =>
    intro r
    rw [List.foldl_cons, ih, processTCPRouter_tcpRouters]

theorem foldTCP_tcpsvcs :
    ∀ (rs : List (String × TCPRouterInfo)) (r : RuntimeConfiguration) (s : String),
    lookIn ((rs.foldl processTCPRouter r).tcpServices) s =
      (lookIn r.tcpServices s).map (fun ti =>
        { ti with usedBy := ti.usedBy ++ rs.flatMap (tcpSvcContrib s) }) := by
  intro rs
  induction rs with
  | nil =>
    intro r s
    cases h : lookIn r.tcpServices s <;> simp [h]
  | cons p t ih =>
    intro r s
    rw [List.foldl_cons, ih, processTCPRouter_tcpsvcs]
    cases h : lookIn r.tcpServices s <;>
      simp [h, List.flatMap_cons, List.append_assoc]

theorem statusInitRouter_router (ri : RouterInfo) :
    (statusInitRouter ri).router = ri.router := by
  unfold statusInitRouter
  split_ifs <;> rfl

theorem statusInitRouter_err (ri : RouterInfo) :
    (statusInitRouter ri).err = ri.err := by
  unfold statusInitRouter
  split_ifs <;> rfl

theorem statusInitRouter_status_ne (ri : RouterInfo) :
    (statusInitRouter ri).status ≠ "" := by
  unfold statusInitRouter
  split_ifs with h
  · intro hc
    exact absurd hc (by simp [RuntimeStatusEnabled])
  · exact h

theorem statusInitRouter_idem (ri : RouterInfo) :
    statusInitRouter (statusInitRouter ri) = statusInitRouter ri := by
  unfold statusInitRouter
  split_ifs <;> rfl

theorem statusInitService_status_ne (si : ServiceInfo) :
    (statusInitService si).status ≠ "" := by
  unfold statusInitService
  split_ifs with h
  · intro hc
    exact absurd hc (by simp [RuntimeStatusEnabled])
  · exact h

/-- Characterization of the router status-initialization fold over an
allocated router map with no duplicate keys. -/
theorem statusFold_some :
    ∀ (t pre : List (String × RouterInfo)),
      (alKeys t).Nodup → (∀ q ∈ t, ∀ q' ∈ pre, q.1 ≠ q'.1) →
    t.foldl (fun m p => if p.2.status = "" then updIn m p.1 (fun x => { x with status := RuntimeStatusEnabled }) else m) (some (pre ++ t)) =
      some (pre ++ t.map (fun q => (q.1, statusInitRouter q.2))) := by
  intro t
  induction t with
  | nil =>
    intro pre _ _
    simp
  | cons q rest ih =>
    intro pre hnd hdis
    rcases q with ⟨qk, qv⟩
    rw [alKeys_cons] at hnd
    rw [List.foldl_cons]
    have hpre : ∀ p ∈ pre, p.1 ≠ qk := by
      intro p hp
      exact fun hh => hdis (qk, qv) (List.mem_cons_self _ _) p hp hh.symm
    have hrest : ∀ p ∈ rest, p.1 ≠ qk := by
      intro p hp hh
      exact (List.nodup_cons.mp hnd).1 (hh ▸ List.mem_map.mpr ⟨p, hp, rfl⟩)
    have hstep : (if qv.status = "" then updIn (some (pre ++ (qk, qv) :: rest)) qk (fun x => { x with status := RuntimeStatusEnabled }) else some (pre ++ (qk, qv) :: rest)) = some ((pre ++ [(qk, statusInitRouter qv)]) ++ rest) := by
      by_cases hq : qv.status = ""
      · rw [if_pos hq]
        show some (alUpdate (pre ++ (qk, qv) :: rest) qk (fun x => { x with status := RuntimeStatusEnabled })) = _
        congr 1
        rw [show pre ++ (qk, qv) :: rest = (pre ++ [(qk, qv)]) ++ rest from by simp,
          alUpdate_append, alUpdate_append,
          alUpdate_eq_self_of_disjoint pre qk _ hpre,
          alUpdate_eq_self_of_disjoint rest qk _ hrest,
          alUpdate_cons, if_pos rfl]
        unfold statusInitRouter
        rw [if_pos hq]
        rfl
      · rw [if_neg hq]
        unfold statusInitRouter
        rw [if_neg hq]
        simp
    rw [hstep]
    have hdis' : ∀ p ∈ rest, ∀ p' ∈ pre ++ [(qk, statusInitRouter qv)], p.1 ≠ p'.1 := by
      intro p hp p' hp'
      rcases List.mem_append.mp hp' with h | h
      · exact hdis p (List.mem_cons_of_mem _ hp) p' h
      · rcases List.mem_singleton.mp h with rfl
        exact hrest p hp
    rw [ih (pre ++ [(qk, statusInitRouter qv)]) (List.nodup_cons.mp hnd).2 hdis']
    simp

/-- After `PopulateUsedBy`, each HTTP router keeps its name, its dynamic
configuration and its errors; only an empty status is initialized. -/
theorem populate_routers (cfg : RuntimeConfiguration)
    (hnd : (alKeys (entriesOf cfg.routers)).Nodup) :
    (populateUsedBy cfg).routers =
      cfg.routers.map (List.map (fun q => (q.1, statusInitRouter q.2))) := by
  simp only [populateUsedBy, foldTCP_routers]
  rw [foldR_routers]
  cases hcr : cfg.routers with
  | none => simp [entriesOf]
  | some l =>
    rw [hcr] at hnd
    have := statusFold_some l [] (by simpa [entriesOf] using hnd)
      (by intro q _ q' hq'; cases hq')
    simpa [entriesOf] using this

theorem populate_tcpRouters (cfg : RuntimeConfiguration) :
    (populateUsedBy cfg).tcpRouters = cfg.tcpRouters := by
  simp only [populateUsedBy, foldTCP_tcpRouters, foldR_tcpRouters]

/-- After one `PopulateUsedBy` pass, each HTTP service keeps its
configuration, errors and server statuses, its empty status is initialized,
and its `UsedBy` list is the sorted extension by all router contributions. -/
theorem populate_svcs_lookIn (cfg : RuntimeConfiguration) (sn : String) :
    lookIn (populateUsedBy cfg).services sn =
      (lookIn cfg.services sn).map (fun si0 =>
        { si0 with status := (statusInitService si0).status, usedBy := sortStrings (si0.usedBy ++ svcContribAll cfg sn) }) := by
  simp only [populateUsedBy, foldTCP_services]
  rw [lookIn_mapVals, foldR_svcs]
  unfold svcContribAll
  cases h : lookIn cfg.services sn with
  | none => rfl
  | some si0 =>
    simp only [Option.map_some']
    congr 1
    unfold sortInitServiceVal statusInitService
    split_ifs <;> rfl

/-- After one `PopulateUsedBy` pass, each middleware keeps its configuration
and errors, and its `UsedBy` list is the sorted extension by all router
contributions. -/
theorem populate_mids_lookIn (cfg : RuntimeConfiguration) (mn : String) :
    lookIn (populateUsedBy cfg).middlewares mn =
      (lookIn cfg.middlewares mn).map (fun mi0 =>
        { mi0 with usedBy := sortStrings (mi0.usedBy ++ midContribAll cfg mn) }) := by
  simp only [populateUsedBy, foldTCP_middlewares]
  rw [lookIn_mapVals, foldR_mids]
  unfold midContribAll
  cases h : lookIn cfg.middlewares mn with
  | none => rfl
  | some mi0 =>
    simp only [Option.map_some']
    congr 1

/-- After one `PopulateUsedBy` pass, each TCP service keeps its configuration
and error, and its `UsedBy` list is the sorted extension by all TCP router
contributions. -/
theorem populate_tcpsvcs_lookIn (cfg : RuntimeConfiguration) (sn : String) :
    lookIn (populateUsedBy cfg).tcpServices sn =
      (lookIn cfg.tcpServices sn).map (fun ti0 =>
        { ti0 with usedBy := sortStrings (ti0.usedBy ++ tcpContribAll cfg sn) }) := by
  simp only [populateUsedBy]
  rw [lookIn_mapVals, foldTCP_tcpsvcs, foldR_tcpRouters, foldR_tcpServices]
  unfold tcpContribAll
  cases h : lookIn cfg.tcpServices sn with
  | none => rfl
  | some ti0 =>
    simp only [Option.map_some']
    congr 1

theorem alKeys_map_pair {α β : Type} (l : List (String × α)) (g : α → β) :
    alKeys (l.map (fun q => (q.1, g q.2))) = alKeys l := by
  simp [alKeys, List.map_map, Function.comp]

theorem alKeys_entriesOf_updIn {α : Type} (m : Option (List (String × α)))
    (k : String) (f : α → α) :
    alKeys (entriesOf (updIn m k f)) = alKeys (entriesOf m) := by
  cases m <;> simp [entriesOf, updIn, alKeys_alUpdate]

theorem alKeys_entriesOf_mapVals {α β : Type} (m : Option (List (String × α)))
    (g : α → β) :
    alKeys (entriesOf (m.map (List.map (fun p => (p.1, g p.2))))) =
      alKeys (entriesOf m) := by
  cases m <;> first
    | rfl
    | simp [entriesOf, alKeys_map_pair]

theorem linkRouterMids_keys (provider routerName : String) :
    ∀ (refs : List String) (mids : Option (List (String × MiddlewareInfo))),
    alKeys (entriesOf (linkRouterMids mids provider routerName refs)) =
      alKeys (entriesOf mids) := by
  intro refs
  induction refs with
  | nil =>
    intro mids
    rfl
  | cons ref rest ih =>
    intro mids
    show alKeys (entriesOf (linkRouterMids
        (if (lookIn mids (getQualifiedName provider ref)).isSome then
          updIn mids (getQualifiedName provider ref)
            (fun mi => { mi with usedBy := mi.usedBy ++ [routerName] })
         else mids) provider routerName rest)) = _
    rw [ih]
    split_ifs with h
    · rw [alKeys_entriesOf_updIn]
    · rfl

theorem processRouter_svcKeys (r : RuntimeConfiguration) (p : String × RouterInfo) :
    alKeys (entriesOf (processRouter r p).services) = alKeys (entriesOf r.services) := by
  simp only [processRouter]
  split_ifs <;> simp [alKeys_entriesOf_updIn]

theorem processRouter_midKeys (r : RuntimeConfiguration) (p : String × RouterInfo) :
    alKeys (entriesOf (processRouter r p).middlewares) =
      alKeys (entriesOf r.middlewares) := by
  simp only [processRouter]
  split_ifs <;> simp [linkRouterMids_keys]

theorem processTCPRouter_tcpsvcKeys (r : RuntimeConfiguration)
    (p : String × TCPRouterInfo) :
    alKeys (entriesOf (processTCPRouter r p).tcpServices) =
      alKeys (entriesOf r.tcpServices) := by
  simp only [processTCPRouter]
  split_ifs <;> simp [alKeys_entriesOf_updIn]

theorem foldR_svcKeys :
    ∀ (rs : List (String × RouterInfo)) (r : RuntimeConfiguration),
    alKeys (entriesOf ((rs.foldl processRouter r).services)) =
      alKeys (entriesOf r.services) := by
  intro rs
  induction rs with
  | nil => intro r; rfl
  | cons p t ih =>
    intro r
    rw [List.foldl_cons, ih, processRouter_svcKeys]

theorem foldR_midKeys :
    ∀ (rs : List (String × RouterInfo)) (r : RuntimeConfiguration),
    alKeys (entriesOf ((rs.foldl processRouter r).middlewares)) =
      alKeys (entriesOf r.middlewares) := by
  intro rs
  induction rs with
  | nil => intro r; rfl
  | cons p t ih =>
    intro r
    rw [List.foldl_cons, ih, processRouter_midKeys]

theorem foldTCP_tcpsvcKeys :
    ∀ (rs : List (String × TCPRouterInfo)) (r : RuntimeConfiguration),
    alKeys (entriesOf ((rs.foldl processTCPRouter r).tcpServices)) =
      alKeys (entriesOf r.tcpServices) := by
  intro rs
  induction rs with
  | nil => intro r; rfl
  | cons p t ih =>
    intro r
    rw [List.foldl_cons, ih, processTCPRouter_tcpsvcKeys]

theorem populate_svcKeys (cfg : RuntimeConfiguration) :
    alKeys (entriesOf (populateUsedBy cfg).services) =
      alKeys (entriesOf cfg.services) := by
  simp only [populateUsedBy, foldTCP_services]
  rw [alKeys_entriesOf_mapVals, foldR_svcKeys]

theorem populate_midKeys (cfg : RuntimeConfiguration) :
    alKeys (entriesOf (populateUsedBy cfg).middlewares) =
      alKeys (entriesOf cfg.middlewares) := by
  simp only [populateUsedBy, foldTCP_middlewares]
  rw [alKeys_entriesOf_mapVals, foldR_midKeys]

theorem populate_tcpsvcKeys (cfg : RuntimeConfiguration) :
    alKeys (entriesOf (populateUsedBy cfg).tcpServices) =
      alKeys (entriesOf cfg.tcpServices) := by
  simp only [populateUsedBy]
  rw [alKeys_entriesOf_mapVals, foldTCP_tcpsvcKeys, foldR_tcpServices]

theorem routerSvcContrib_statusInit (sn : String) (q : String × RouterInfo) :
    routerSvcContrib sn (q.1, statusInitRouter q.2) = routerSvcContrib sn q := by
  unfold routerSvcContrib
  rw [statusInitRouter_router]

theorem routerMidContrib_statusInit (mn : String) (q : String × RouterInfo) :
    routerMidContrib mn (q.1, statusInitRouter q.2) = routerMidContrib mn q := by
  unfold routerMidContrib
  rw [statusInitRouter_router]

theorem svcContribAll_populate (cfg : RuntimeConfiguration)
    (hnd : (alKeys (entriesOf cfg.routers)).Nodup) (sn : String) :
    svcContribAll (populateUsedBy cfg) sn = svcContribAll cfg sn := by
  unfold svcContribAll
  rw [populate_routers cfg hnd]
  cases cfg.routers with
  | none => rfl
  | some l =>
    simp only [Option.map_some', entriesOf_some]
    induction l with
    | nil => rfl
    | cons q t ih =>
      simp only [List.map_cons, List.flatMap_cons, ih,
        routerSvcContrib_statusInit]

theorem midContribAll_populate (cfg : RuntimeConfiguration)
    (hnd : (alKeys (entriesOf cfg.routers)).Nodup) (mn : String) :
    midContribAll (populateUsedBy cfg) mn = midContribAll cfg mn := by
  unfold midContribAll
  rw [populate_routers cfg hnd]
  cases cfg.routers with
  | none => rfl
  | some l =>
    simp only [Option.map_some', entriesOf_some]
    induction l with
    | nil => rfl
    | cons q t ih =>
      simp only [List.map_cons, List.flatMap_cons, ih,
        routerMidContrib_statusInit]

theorem tcpContribAll_populate (cfg : RuntimeConfiguration) (sn : String) :
    tcpContribAll (populateUsedBy cfg) sn = tcpContribAll cfg sn := by
  unfold tcpContribAll
  rw [populate_tcpRouters]

theorem statusInitService_of_ne (si : ServiceInfo) (h : si.status ≠ "") :
    statusInitService si = si := by
  unfold statusInitService
  rw [if_neg h]

theorem mem_of_lookIn {α : Type} (m : Option (List (String × α))) (k : String)
    (v : α) (h : lookIn m k = some v) : (k, v) ∈ entriesOf m := by
  cases m with
  | none => cases h
  | some l =>
    replace h : alLookup l k = some v := h
    unfold alLookup at h
    cases hf : l.find? (fun q => q.1 == k) with
    | none =>
      rw [hf] at h
      cases h
    | some q =>
      rw [hf] at h
      simp only [Option.map_some'] at h
      have hq := List.find?_some hf
      have hm := List.mem_of_find?_eq_some hf
      rcases q with ⟨a, b⟩
      simp only [beq_iff_eq] at hq
      injection h with h2
      subst hq
      subst h2
      exact hm

theorem mem_svcContribAll (cfg : RuntimeConfiguration) (sn rn : String) :
    rn ∈ svcContribAll cfg sn ↔
      ∃ ri, (rn, ri) ∈ entriesOf cfg.routers ∧ getProviderName rn ≠ "" ∧
        getQualifiedName (getProviderName rn) ri.router.service = sn := by
  unfold svcContribAll
  rw [List.mem_flatMap]
  constructor
  · rintro ⟨p, hp, hmem⟩
    simp only [routerSvcContrib] at hmem
    split_ifs at hmem with h1 h2
    · cases hmem
    · rcases List.mem_singleton.mp hmem with rfl
      exact ⟨p.2, hp, h1, h2⟩
    · cases hmem
  · rintro ⟨ri, hmem, hprov, hqual⟩
    refine ⟨(rn, ri), hmem, ?_⟩
    simp only [routerSvcContrib]
    rw [if_neg hprov, if_pos hqual]
    exact List.mem_singleton.mpr rfl

theorem mem_midContribAll (cfg : RuntimeConfiguration) (mn rn : String) :
    rn ∈ midContribAll cfg mn ↔
      ∃ ri ref, (rn, ri) ∈ entriesOf cfg.routers ∧ getProviderName rn ≠ "" ∧
        ref ∈ ri.router.middlewares ∧
        getQualifiedName (getProviderName rn) ref = mn := by
  unfold midContribAll
  rw [List.mem_flatMap]
  constructor
  · rintro ⟨p, hp, hmem⟩
    simp only [routerMidContrib] at hmem
    split_ifs at hmem with h1
    · cases hmem
    · rcases List.mem_map.mp hmem with ⟨ref, href, rfl⟩
      rcases List.mem_filter.mp href with ⟨hrefs, hbeq⟩
      exact ⟨p.2, ref, hp, h1, hrefs, by simpa using hbeq⟩
  · rintro ⟨ri, ref, hmem, hprov, hrefs, hqual⟩
    refine ⟨(rn, ri), hmem, ?_⟩
    simp only [routerMidContrib]
    rw [if_neg hprov]
    exact List.mem_map.mpr ⟨ref, List.mem_filter.mpr ⟨hrefs, by simpa using hqual⟩, rfl⟩

/-- C2 counterexample: `PopulateUsedBy` is not idempotent — on a
configuration with one qualified router whose service and middleware both
resolve, a second call appends the router name to the `UsedBy` lists again,
so the result differs from a single call. -/
theorem c2_not_idempotent_counterexample :
    ¬ (populateUsedBy (populateUsedBy cfgLink) = populateUsedBy cfgLink) := by
  decide

/-- C2 (amended): a second `PopulateUsedBy` call leaves every entity name,
every `Err` list and every `Status` equal to the result of the first call
(the router and TCP router maps are completely unchanged, and the key sets of
the other maps are preserved), but it is not idempotent: each `UsedBy` list
is extended by the same router-name contributions a second time and
re-sorted, so duplicates appear. -/
theorem c2_populateUsedBy_second_call (cfg : RuntimeConfiguration)
    (hnd : (alKeys (entriesOf cfg.routers)).Nodup) :
    (populateUsedBy (populateUsedBy cfg)).routers = (populateUsedBy cfg).routers ∧
    (populateUsedBy (populateUsedBy cfg)).tcpRouters = (populateUsedBy cfg).tcpRouters ∧
    alKeys (entriesOf (populateUsedBy (populateUsedBy cfg)).services) =
      alKeys (entriesOf (populateUsedBy cfg).services) ∧
    alKeys (entriesOf (populateUsedBy (populateUsedBy cfg)).middlewares) =
      alKeys (entriesOf (populateUsedBy cfg).middlewares) ∧
    alKeys (entriesOf (populateUsedBy (populateUsedBy cfg)).tcpServices) =
      alKeys (entriesOf (populateUsedBy cfg).tcpServices) ∧
    (∀ sn, lookIn (populateUsedBy (populateUsedBy cfg)).services sn =
      (lookIn (populateUsedBy cfg).services sn).map (fun si =>
        { si with usedBy := sortStrings (si.usedBy ++ svcContribAll cfg sn) })) ∧
    (∀ mn, lookIn (populateUsedBy (populateUsedBy cfg)).middlewares mn =
      (lookIn (populateUsedBy cfg).middlewares mn).map (fun mi =>
        { mi with usedBy := sortStrings (mi.usedBy ++ midContribAll cfg mn) })) ∧
    (∀ sn, lookIn (populateUsedBy (populateUsedBy cfg)).tcpServices sn =
      (lookIn (populateUsedBy cfg).tcpServices sn).map (fun ti =>
        { ti with usedBy := sortStrings (ti.usedBy ++ tcpContribAll cfg sn) })) := by
  have hnd' : (alKeys (entriesOf (populateUsedBy cfg).routers)).Nodup := by
    rw [populate_routers cfg hnd]
    cases hcr : cfg.routers with
    | none => simp [entriesOf, alKeys]
    | some l =>
      rw [hcr] at hnd
      simpa [entriesOf, alKeys_map_pair] using hnd
  refine ⟨?_, ?_, ?_, ?_, ?_, ?_, ?_, ?_⟩
  · rw [populate_routers _ hnd', populate_routers cfg hnd]
    cases cfg.routers with
    | none => rfl
    | some l =>
      simp [entriesOf, List.map_map, Function.comp, statusInitRouter_idem]
  · rw [populate_tcpRouters]
  · rw [populate_svcKeys]
  · rw [populate_midKeys]
  · rw [populate_tcpsvcKeys]
  · intro sn
    rw [populate_svcs_lookIn (populateUsedBy cfg) sn]
    simp only [svcContribAll_populate cfg hnd]
    cases h0 : lookIn cfg.services sn with
    | none =>
      have h1 : lookIn (populateUsedBy cfg).services sn = none := by
        rw [populate_svcs_lookIn cfg sn, h0]
        rfl
      rw [h1]
      rfl
    | some si0 =>
      have h1 : lookIn (populateUsedBy cfg).services sn =
          some ({ si0 with status := (statusInitService si0).status, usedBy := sortStrings (si0.usedBy ++ svcContribAll cfg sn) }) := by
        rw [populate_svcs_lookIn cfg sn, h0]
        rfl
      rw [h1]
      simp only [Option.map_some']
      congr 1
      rw [statusInitService_of_ne ({ si0 with status := (statusInitService si0).status, usedBy := sortStrings (si0.usedBy ++ svcContribAll cfg sn) }) (statusInitService_status_ne si0)]
  · intro mn
    rw [populate_mids_lookIn (populateUsedBy cfg) mn]
    simp only [midContribAll_populate cfg hnd]
  · intro sn
    rw [populate_tcpsvcs_lookIn (populateUsedBy cfg) sn]
    simp only [tcpContribAll_populate cfg]

/-- C2 witness: the second-call characterization at a configuration with one
qualified router whose service reference resolves. -/
theorem c2_populateUsedBy_second_call_witness :
    ((alKeys (entriesOf cfgLink.routers)).Nodup) ∧
    (populateUsedBy (populateUsedBy cfgLink)).routers = (populateUsedBy cfgLink).routers ∧
    lookIn (populateUsedBy (populateUsedBy cfgLink)).services "s@p" =
      (lookIn (populateUsedBy cfgLink).services "s@p").map (fun si =>
        { si with usedBy := sortStrings (si.usedBy ++ svcContribAll cfgLink "s@p") }) :=
  ⟨by decide,
   (c2_populateUsedBy_second_call cfgLink (by decide)).1,
   (c2_populateUsedBy_second_call cfgLink (by decide)).2.2.2.2.2.1 "s@p"⟩

/-- C7: for qualified routers, `PopulateUsedBy` appends the router's name to
a service's or middleware's `UsedBy` list exactly when the reference,
qualified with the router's provider when not already qualified, names an
entity present in the corresponding map; missing targets are silently skipped
with no error recorded on the router; and afterwards every `UsedBy` list is
sorted lexically. -/
theorem c7_populateUsedBy_links (cfg : RuntimeConfiguration)
    (hnd : (alKeys (entriesOf cfg.routers)).Nodup)
    (hfreshS : ∀ p ∈ entriesOf cfg.services, ServiceInfo.usedBy p.2 = [])
    (hfreshM : ∀ p ∈ entriesOf cfg.middlewares, MiddlewareInfo.usedBy p.2 = []) :
    (∀ sn si, lookIn (populateUsedBy cfg).services sn = some si →
      List.Sorted LeStr si.usedBy ∧
      (∀ rn, rn ∈ si.usedBy ↔ ∃ ri, (rn, ri) ∈ entriesOf cfg.routers ∧
        getProviderName rn ≠ "" ∧
        getQualifiedName (getProviderName rn) ri.router.service = sn)) ∧
    (∀ mn mi, lookIn (populateUsedBy cfg).middlewares mn = some mi →
      List.Sorted LeStr mi.usedBy ∧
      (∀ rn, rn ∈ mi.usedBy ↔ ∃ ri ref, (rn, ri) ∈ entriesOf cfg.routers ∧
        getProviderName rn ≠ "" ∧ ref ∈ ri.router.middlewares ∧
        getQualifiedName (getProviderName rn) ref = mn)) ∧
    (∀ rn, (lookIn (populateUsedBy cfg).routers rn).map RouterInfo.err =
      (lookIn cfg.routers rn).map RouterInfo.err) := by
  refine ⟨?_, ?_, ?_⟩
  · intro sn si hsome
    rw [populate_svcs_lookIn cfg sn] at hsome
    cases h0 : lookIn cfg.services sn with
    | none =>
      rw [h0] at hsome
      cases hsome
    | some si0 =>
      rw [h0] at hsome
      simp only [Option.map_some'] at hsome
      have husedBy0 : si0.usedBy = [] := hfreshS (sn, si0) (mem_of_lookIn _ _ _ h0)
      injection hsome with hsi
      subst hsi
      constructor
      · exact sortStrings_sorted _
      · intro rn
        show rn ∈ sortStrings (si0.usedBy ++ svcContribAll cfg sn) ↔ _
        rw [mem_sortStrings, husedBy0, List.nil_append, mem_svcContribAll]
  · intro mn mi hsome
    rw [populate_mids_lookIn cfg mn] at hsome
    cases h0 : lookIn cfg.middlewares mn with
    | none =>
      rw [h0] at hsome
      cases hsome
    | some mi0 =>
      rw [h0] at hsome
      simp only [Option.map_some'] at hsome
      have husedBy0 : mi0.usedBy = [] := hfreshM (mn, mi0) (mem_of_lookIn _ _ _ h0)
      injection hsome with hmi
      subst hmi
      constructor
      · exact sortStrings_sorted _
      · intro rn
        show rn ∈ sortStrings (mi0.usedBy ++ midContribAll cfg mn) ↔ _
        rw [mem_sortStrings, husedBy0, List.nil_append, mem_midContribAll]
  · intro rn
    rw [populate_routers cfg hnd, lookIn_mapVals]
    cases h : lookIn cfg.routers rn <;> simp [h, statusInitRouter_err]

/-- C7 witness: the linking theorem applied to a configuration with one
qualified router whose service and middleware references both resolve. -/
theorem c7_populateUsedBy_links_witness :
    List.Sorted LeStr siLinked.usedBy ∧
    (("r@p" ∈ siLinked.usedBy) ↔ ∃ ri, ("r@p", ri) ∈ entriesOf cfgLink.routers ∧
      getProviderName "r@p" ≠ "" ∧
      getQualifiedName (getProviderName "r@p") ri.router.service = "s@p") ∧
    List.Sorted LeStr miLinked.usedBy ∧
    (("r@p" ∈ miLinked.usedBy) ↔ ∃ ri ref, ("r@p", ri) ∈ entriesOf cfgLink.routers ∧
      getProviderName "r@p" ≠ "" ∧ ref ∈ ri.router.middlewares ∧
      getQualifiedName (getProviderName "r@p") ref = "m@p") ∧
    (lookIn (populateUsedBy cfgLink).routers "r@p").map RouterInfo.err =
      (lookIn cfgLink.routers "r@p").map RouterInfo.err := by
  have h := c7_populateUsedBy_links cfgLink (by decide) (by decide) (by decide)
  have hs := h.1 "s@p" siLinked (by decide)
  have hm := h.2.1 "m@p" miLinked (by decide)
  exact ⟨hs.1, hs.2 "r@p", hm.1, hm.2 "r@p", h.2.2 "r@p"⟩
